import Mathlib

/-! # Entity-component storage of the iodine engine

A shallow embedding of `core/src/ecs/component/component.hpp`: the type-erased
store interface `Dashboard`, the concrete store `Storage<T>` and the `Registry`,
together with the sparse set the concrete store is built on; then the signal
flags of `platform/platform_windows.cpp` and the configuration builder of
`entry/application.h`.

Conventions of the embedding:

* entity indices and component identifiers are natural numbers (the code does no
  arithmetic on them);
* a component value is a value of an arbitrary type `α`; a `void*` that points
  at a component is the component it points at, and the null pointer is `none`;
* a call either returns its result together with the diagnostics it logged, or
  it aborts (`Abort`);
* `C` is the collection of component types a template can be instantiated at
  (those passing the compile-time `STATIC_ASSERT(isComponent<T>())`), `D` the
  type of reflected type descriptors and `reflect : C → D` stands for
  `Reflect::reflect<T>()`;
* `assertsOn` tells whether the build defines `IO_ASSERTS_ON`.
-/

namespace Iodine

/-! ## Collaborators of the storage core -/

/-- Modelled from the spec: the entity handle of `ecs/entity/entity.hpp`, which is
not part of the sources at hand. Section 3 describes it as a handle with a dense
integer index; only that index is consumed by the stores. -/
structure Entity where
  index : Nat
deriving DecidableEq, Repr

/-- The accessor `Entity::getIndex()`. -/
def Entity.getIndex (entity : Entity) : Nat := entity.index

/-- How a call can end without returning. -/
inductive Abort where
  /-- A sparse-set operation was called outside its precondition. -/
  | callerError
  /-- An `IO_ASSERT_MSG` failed: `assertFail` is reported, then `IO_DEBUG_BREAK()` traps. -/
  | assertFail (message : String)
  /-- The null pointer was dereferenced. -/
  | nullDeref
deriving DecidableEq, Repr

/-- Modelled from the spec: a diagnostic handed to the log sink by `IO_WARN`, a macro of
`debug/log.hpp`, which is not part of the sources at hand. The texts are those of the
`IO_WARN` statements of component.hpp. -/
inductive Diag (D : Type) where
  /-- The text "Entity does not have component of type: %s". -/
  | lacksComponent (type : D)
  /-- The text "Entity already has component of type: %s". -/
  | hasComponent (type : D)
  /-- The text "Component already registered with ID: %ull". -/
  | alreadyRegistered (id : Nat)
deriving DecidableEq, Repr

/-- The outcome of a call: the returned value with the diagnostics logged, or an abort. -/
inductive Outcome (D β : Type) where
  | ok (value : β) (log : List (Diag D))
  | abort (cause : Abort)
deriving DecidableEq, Repr

/-! ## Sparse set -/

/-- Modelled from the spec: the container `SparseSet<T>` of `container/sparse_set.hpp`,
which is not part of the sources at hand. Following section 3, `sparse` maps an entity
index to a position in `dense` (`none` is the invalid entry) and `dense` is the contiguous
sequence of (entity-index, value) pairs. -/
structure SparseSet (α : Type) where
  sparse : List (Option Nat)
  dense : List (Nat × α)
deriving DecidableEq, Repr

namespace SparseSet

variable {α : Type}

/-- Modelled from the spec: the freshly constructed sparse set, with nothing stored. -/
def empty : SparseSet α := ⟨[], []⟩

/-- Modelled from the spec: the entry at `index` of a sparse array, when `index` is inside
the array and the entry is valid. -/
def entry (sparse : List (Option Nat)) (index : Nat) : Option Nat :=
  match sparse[index]? with
  | some (some pos) => some pos
  | _ => none

/-- Modelled from the spec: the valid entry `sparse[index]` of a sparse set, if any. -/
def slot (s : SparseSet α) (index : Nat) : Option Nat :=
  entry s.sparse index

/-- Modelled from the spec: `contains(index)`, section 4.1. -/
def contains (s : SparseSet α) (index : Nat) : Bool :=
  (s.slot index).isSome

/-- Modelled from the spec: the dense count, the number of stored elements. -/
def size (s : SparseSet α) : Nat := s.dense.length

/-- Modelled from the spec: `emplace(index, value)`, section 4.1. Precondition
`!contains(index)`, whose violation is a caller error; otherwise the pair is appended to
`dense` and the mapping recorded in `sparse`, which grows to hold `index`. -/
def emplace (s : SparseSet α) (index : Nat) (value : α) : Option (SparseSet α) :=
  if s.contains index then none
  else some
    { sparse := (s.sparse ++ List.replicate (index + 1 - s.sparse.length) none).set index
        (some s.dense.length)
      dense := s.dense ++ [(index, value)] }

/-- Modelled from the spec: `access(index)`, section 4.1, the `operator[]` used by
`Storage::get`. Precondition `contains(index)`. -/
def access (s : SparseSet α) (index : Nat) : Option α :=
  match s.slot index with
  | none => none
  | some pos => (s.dense[pos]?).map Prod.snd

/-- Modelled from the spec: `erase(index)`, section 4.1. Precondition `contains(index)`.
The target's dense slot is swapped with the last occupied slot, the swapped entry's sparse
mapping is updated, and `dense` is truncated by one. The erased index's own entry becomes
invalid, as the invariant of section 3 requires of a valid entry that it points at a
dense pair carrying its index. -/
def erase (s : SparseSet α) (index : Nat) : Option (SparseSet α) :=
  match s.slot index, s.dense.getLast? with
  | some pos, some last => some
    { sparse := (s.sparse.set last.1 (some pos)).set index none
      dense := (s.dense.set pos last).dropLast }
  | _, _ => none

/-- The sparse-set invariant of section 3, as a check over the two arrays: every valid
entry `sparse[i]` is a position of `dense` whose pair carries the index `i`, and every
pair of `dense` is pointed at by the sparse entry of its index. -/
def wf (s : SparseSet α) : Bool :=
  (List.range s.sparse.length).all (fun i =>
    match s.slot i with
    | some pos => (s.dense[pos]?).map Prod.fst == some i
    | none => true) &&
  (List.range s.dense.length).all (fun pos =>
    match s.dense[pos]? with
    | some e => s.slot e.1 == some pos
    | none => true)

/-- The sparse-set invariant as a proposition. -/
def Inv (s : SparseSet α) : Prop :=
  (∀ i pos, s.slot i = some pos → (s.dense[pos]?).map Prod.fst = some i) ∧
  (∀ pos e, s.dense[pos]? = some e → s.slot e.1 = some pos)

end SparseSet

/-! ## Concrete store -/

/-- The class `Storage<T>`: the template parameter `T` it was instantiated at, the sparse
set `entities` and the member `type`. -/
structure Storage (C D α : Type) where
  T : C
  entities : SparseSet α
  type : D
deriving DecidableEq, Repr

namespace Storage

variable {C D α : Type}

/-- The constructor `Storage() : type(Reflect::reflect<T>())`. -/
def new (reflect : C → D) (T : C) : Storage C D α :=
  { T := T, entities := SparseSet.empty, type := reflect T }

/-- The method `Storage::getType`: the function-local static initialised with
`Reflect::reflect<T>()`. -/
def getType (reflect : C → D) (s : Storage C D α) : D := reflect s.T

/-- The method `Storage::remove`. -/
def remove (reflect : C → D) (s : Storage C D α) (entity : Entity) :
    Outcome D (Storage C D α) :=
  if !s.entities.contains entity.getIndex then
    .ok s [.lacksComponent (s.getType reflect)]
  else
    match s.entities.erase entity.getIndex with
    | some es => .ok { s with entities := es } []
    | none => .abort .callerError

/-- The untyped method `Storage::get`, returning the stored component or the null
pointer. The store itself is not changed. -/
def get (reflect : C → D) (s : Storage C D α) (entity : Entity) : Outcome D (Option α) :=
  if !s.entities.contains entity.getIndex then
    .ok none [.lacksComponent (s.getType reflect)]
  else
    match s.entities.access entity.getIndex with
    | some v => .ok (some v) []
    | none => .abort .callerError

/-- The untyped method `Storage::insert`. -/
def insert (reflect : C → D) (s : Storage C D α) (entity : Entity) (component : α) :
    Outcome D (Storage C D α) :=
  if s.entities.contains entity.getIndex then
    .ok s [.hasComponent (s.getType reflect)]
  else
    match s.entities.emplace entity.getIndex component with
    | some es => .ok { s with entities := es } []
    | none => .abort .callerError

end Storage

/-! ## Type-erased interface -/

/-- The statement `IO_ASSERT_MSG(expression, message)` of `prelude.hpp`: with
`IO_ASSERTS_ON` defined a false expression is reported and traps, without it the
statement is empty. `none` means that execution continues. -/
def IO_ASSERT_MSG (assertsOn : Bool) (expression : Bool) (message : String) : Option Abort :=
  if assertsOn then
    if expression then none else some (.assertFail message)
  else none

namespace Dashboard

variable {C D α : Type} [DecidableEq D]

/-- The typed accessor `Dashboard::get<T>`, called with template argument `U` on the
store `s`: the assertion, then the untyped `get`, whose result is dereferenced. -/
def get (assertsOn : Bool) (reflect : C → D) (U : C) (s : Storage C D α) (entity : Entity) :
    Outcome D α :=
  match IO_ASSERT_MSG assertsOn (decide (reflect U = s.getType reflect))
      "Component type mismatch" with
  | some a => .abort a
  | none =>
    match s.get reflect entity with
    | .abort a => .abort a
    | .ok none _ => .abort .nullDeref
    | .ok (some v) log => .ok v log

/-- The typed `Dashboard::insert<T>`, called with template argument `U` on the store `s`:
the assertion, then the untyped `insert`. -/
def insert (assertsOn : Bool) (reflect : C → D) (U : C) (s : Storage C D α) (entity : Entity)
    (component : α) : Outcome D (Storage C D α) :=
  match IO_ASSERT_MSG assertsOn (decide (reflect U = s.getType reflect))
      "Component type mismatch" with
  | some a => .abort a
  | none => s.insert reflect entity component

end Dashboard

/-! ## Sequences of calls on one store -/

/-- One call of an untyped operation of `Storage<T>`. -/
inductive Op (α : Type) where
  | insert (entity : Entity) (component : α)
  | get (entity : Entity)
  | remove (entity : Entity)
deriving DecidableEq, Repr

namespace Storage

variable {C D α : Type}

/-- The store after one call, with the diagnostics the call logged. -/
def step (reflect : C → D) (s : Storage C D α) : Op α → Outcome D (Storage C D α)
  | .insert entity component => s.insert reflect entity component
  | .get entity =>
    match s.get reflect entity with
    | .ok _ log => .ok s log
    | .abort a => .abort a
  | .remove entity => s.remove reflect entity

/-- The store after a sequence of calls, `none` when one of the calls aborts. -/
def run (reflect : C → D) (s : Storage C D α) : List (Op α) → Option (Storage C D α)
  | [] => some s
  | op :: ops =>
    match s.step reflect op with
    | .ok s1 _ => run reflect s1 ops
    | .abort _ => none

end Storage

/-! ## Registry -/

/-- The process-wide state `registerComponent` reads and writes: the identifier generator
`uuids`, of which only `generate` is used, and for each component type `T` the
function-local `static ID id` of `registerComponent<T>`, `none` until its initialiser
has run. -/
structure Process (C G : Type) where
  uuids : G
  id : C → Option Nat

/-- The class `Registry`: the map `store` from identifiers to stores, as an association
list in which a key occurs at most once. -/
structure Registry (C D α : Type) where
  store : List (Nat × Storage C D α)
deriving DecidableEq, Repr

/-- What a call of `registerComponent<T>` leaves behind: the returned identifier, the
diagnostics and the two states. -/
structure Registered (C D G α : Type) where
  id : Nat
  log : List (Diag D)
  process : Process C G
  registry : Registry C D α

namespace Registry

variable {C D G α : Type}

/-- The test `store.find(id) != store.end()`. -/
def found (r : Registry C D α) (id : Nat) : Bool :=
  (r.store.lookup id).isSome

/-- The assignment `store[id] = value` of `std::unordered_map`. -/
def assign (r : Registry C D α) (id : Nat) (value : Storage C D α) : Registry C D α :=
  { store := (id, value) :: r.store.filter (fun kv => kv.1 != id) }

/-- The initialisation `static ID id = uuids.generate()`: run once per component type,
skipped on later calls. -/
def staticId [DecidableEq C] (generate : G → Nat × G) (T : C) (p : Process C G) :
    Nat × Process C G :=
  match p.id T with
  | some id => (id, p)
  | none =>
    let g := generate p.uuids
    (g.1, { uuids := g.2, id := Function.update p.id T (some g.1) })

/-- The method `Registry::registerComponent<T>`. -/
def registerComponent [DecidableEq C] (generate : G → Nat × G) (reflect : C → D) (T : C)
    (p : Process C G) (r : Registry C D α) : Registered C D G α :=
  let i := staticId generate T p
  if r.found i.1 then
    { id := i.1, log := [.alreadyRegistered i.1], process := i.2, registry := r }
  else
    { id := i.1, log := [], process := i.2, registry := r.assign i.1 (Storage.new reflect T) }

end Registry

/-! ## Sequences of calls on a sparse set and on a registry -/

namespace SparseSet

variable {α : Type}

/-- Modelled from the spec: one call of a mutating operation of the sparse set,
section 4.1. -/
inductive Call (α : Type) where
  | emplace (index : Nat) (value : α)
  | erase (index : Nat)
deriving DecidableEq, Repr

/-- Modelled from the spec: the sparse set after one call, `none` when the call violates
the precondition of its operation. -/
def apply (s : SparseSet α) : Call α → Option (SparseSet α)
  | .emplace index value => s.emplace index value
  | .erase index => s.erase index

/-- Modelled from the spec: the sparse set after a sequence of calls, `none` when one of
them violates its precondition. -/
def run (s : SparseSet α) : List (Call α) → Option (SparseSet α)
  | [] => some s
  | c :: cs =>
    match s.apply c with
    | some s1 => run s1 cs
    | none => none

end SparseSet

/-- The process before any `registerComponent<T>` has run: no `static ID id` is
initialised yet. -/
def Process.start {C G : Type} (uuids : G) : Process C G :=
  { uuids := uuids, id := fun _ => none }

/-- Modelled from the spec: a generator as section 6 asks for it, monotonic and never
reusing a value (the class of `uuids` is not part of the sources at hand). Its state
is the next value; it returns 0, 1, 2 and so on. -/
def countingGenerator (next : Nat) : Nat × Nat := (next, next + 1)

/-- The value the next call of `uuids.generate()` returns. -/
def Process.next {C G : Type} (generate : G → Nat × G) (p : Process C G) : Nat :=
  (generate p.uuids).1

namespace Registry

variable {C D G α : Type}

/-- The defaulted constructor `Registry()`: the map is empty. -/
def new : Registry C D α := { store := [] }

/-- A sequence of `registerComponent` calls on one registry, one call per listed component
type: the identifiers returned, in order, and the states after the last call. -/
def registerAll [DecidableEq C] (generate : G → Nat × G) (reflect : C → D) (p : Process C G)
    (r : Registry C D α) : List C → List Nat × Process C G × Registry C D α
  | [] => ([], p, r)
  | T :: Ts =>
    let a := registerComponent generate reflect T p r
    let rest := registerAll generate reflect a.process a.registry Ts
    (a.id :: rest.1, rest.2)

/-- The state of the identifiers in a process and one of its registries, as the calls of
`registerComponent` leave it when the generator returns increasing values: every
identifier handed out is below the one the generator returns next, two component types
never share an identifier, every store of the registry is keyed by the identifier of the
type it was instantiated at, and no key occurs twice in the map. -/
def Consistent (generate : G → Nat × G) (p : Process C G) (r : Registry C D α) : Prop :=
  (∀ V i, p.id V = some i → i < p.next generate) ∧
  (∀ V W i, p.id V = some i → p.id W = some i → V = W) ∧
  (∀ kv ∈ r.store, p.id kv.2.T = some kv.1) ∧
  (r.store.map Prod.fst).Nodup

end Registry

/-! ## Platform signals -/

namespace Platform

/-- The conversion `static_cast<u32>(signal)`. -/
def toU32 (signal : Nat) : Nat := signal % 2 ^ 32

/-- The operator `~` on a `u32`. -/
def not32 (x : Nat) : Nat := (2 ^ 32 - 1) ^^^ (x % 2 ^ 32)

/-- The function `Platform::clearSignal`: the value of `signalState` after
`signalState &= ~static_cast<u32>(signal)`. -/
def clearSignal (signalState signal : Nat) : Nat :=
  signalState &&& not32 (toU32 signal)

/-- The function `Platform::isSignal`: the `u32` value `signalState & static_cast<u32>(signal)`
converted to the return type `b8`, an 8-bit `char`, given by its bit pattern. The caller
reads it as a truth value: true when it is not zero. -/
def isSignal (signalState signal : Nat) : Nat :=
  (signalState &&& toU32 signal) % 2 ^ 8

end Platform

/-! ## Application configuration -/

namespace Application

/-- The struct `Application::Config` with its member initialisers. `F` is the type of `f64`
values, which the builder only stores; `b8` flags are truth values. -/
structure Config (F : Type) where
  title : String
  tickRate : Nat
  renderRate : Nat
  isMemoryLogging : Bool
  isPerformanceLogging : Bool
  tickRateWindow : F
  renderRateWindow : F
deriving DecidableEq, Repr

/-- The default member initialisers of `Config`; `one` is the `f64` value of `1.0f`. -/
def Config.default {F : Type} (one : F) : Config F :=
  { title := "Iodine"
    tickRate := 60
    renderRate := 60
    isMemoryLogging := false
    isPerformanceLogging := false
    tickRateWindow := one
    renderRateWindow := one }

/-- The class `Application::Builder`, whose only member is `config`. -/
structure Builder (F : Type) where
  config : Config F
deriving DecidableEq, Repr

/-- One call of a setter of `Builder`. -/
inductive Setter (F : Type) where
  | setTitle (title : String)
  | setTickRate (tickRate : Nat)
  | setTickRateWindow (tickRateWindow : F)
  | setRenderRate (renderRate : Nat)
  | setRenderRateWindow (renderRateWindow : F)
  | enableMemoryLogging
  | enablePerformanceLogging
deriving DecidableEq, Repr

namespace Builder

variable {F : Type}

/-- The implicitly defined constructor of `Builder`: `config` holds its defaults. -/
def new (one : F) : Builder F := { config := Config.default one }

/-- The method `Builder::setTitle`. -/
def setTitle (b : Builder F) (title : String) : Builder F :=
  { b with config := { b.config with title := title } }

/-- The method `Builder::setTickRate`. -/
def setTickRate (b : Builder F) (tickRate : Nat) : Builder F :=
  { b with config := { b.config with tickRate := tickRate } }

/-- The method `Builder::setTickRateWindow`. -/
def setTickRateWindow (b : Builder F) (tickRateWindow : F) : Builder F :=
  { b with config := { b.config with tickRateWindow := tickRateWindow } }

/-- The method `Builder::setRenderRate`. -/
def setRenderRate (b : Builder F) (renderRate : Nat) : Builder F :=
  { b with config := { b.config with renderRate := renderRate } }

/-- The method `Builder::setRenderRateWindow`. -/
def setRenderRateWindow (b : Builder F) (renderRateWindow : F) : Builder F :=
  { b with config := { b.config with renderRateWindow := renderRateWindow } }

/-- The method `Builder::enableMemoryLogging`. -/
def enableMemoryLogging (b : Builder F) : Builder F :=
  { b with config := { b.config with isMemoryLogging := true } }

/-- The method `Builder::enablePerformanceLogging`. -/
def enablePerformanceLogging (b : Builder F) : Builder F :=
  { b with config := { b.config with isPerformanceLogging := true } }

/-- The method `Builder::build`. -/
def build (b : Builder F) : Config F := b.config

/-- The builder after one setter call. -/
def call (b : Builder F) : Setter F → Builder F
  | .setTitle title => b.setTitle title
  | .setTickRate tickRate => b.setTickRate tickRate
  | .setTickRateWindow w => b.setTickRateWindow w
  | .setRenderRate renderRate => b.setRenderRate renderRate
  | .setRenderRateWindow w => b.setRenderRateWindow w
  | .enableMemoryLogging => b.enableMemoryLogging
  | .enablePerformanceLogging => b.enablePerformanceLogging

/-- The builder after a sequence of setter calls, first call first. -/
def calls (b : Builder F) (cs : List (Setter F)) : Builder F :=
  cs.foldl call b

end Builder

namespace Setter

variable {F : Type}

/-- The value a call gives to the field `title`, when it is a call of its setter. -/
def titleArg : Setter F → Option String
  | .setTitle title => some title
  | _ => none

/-- The value a call gives to the field `tickRate`, when it is a call of its setter. -/
def tickRateArg : Setter F → Option Nat
  | .setTickRate tickRate => some tickRate
  | _ => none

/-- The value a call gives to the field `renderRate`, when it is a call of its setter. -/
def renderRateArg : Setter F → Option Nat
  | .setRenderRate renderRate => some renderRate
  | _ => none

/-- The value a call gives to the field `isMemoryLogging`, when it is a call of its
setter: `true`. -/
def memoryLoggingArg : Setter F → Option Bool
  | .enableMemoryLogging => some true
  | _ => none

/-- The value a call gives to the field `isPerformanceLogging`, when it is a call of its
setter: `true`. -/
def performanceLoggingArg : Setter F → Option Bool
  | .enablePerformanceLogging => some true
  | _ => none

/-- The value a call gives to the field `tickRateWindow`, when it is a call of its
setter. -/
def tickRateWindowArg : Setter F → Option F
  | .setTickRateWindow w => some w
  | _ => none

/-- The value a call gives to the field `renderRateWindow`, when it is a call of its
setter. -/
def renderRateWindowArg : Setter F → Option F
  | .setRenderRateWindow w => some w
  | _ => none

end Setter

/-- The argument of the last call in `cs` that `pick` recognises, if there is one. -/
def lastArg {F β : Type} (pick : Setter F → Option β) (cs : List (Setter F)) : Option β :=
  cs.reverse.findSome? pick

end Application

/-! ## Facts about the sparse set -/

namespace SparseSet

variable {α : Type}

theorem entry_of_length_le {l : List (Option Nat)} {i : Nat} (h : l.length ≤ i) :
    entry l i = none := by
  simp [entry, List.getElem?_eq_none h]

theorem entry_lt_length {l : List (Option Nat)} {i pos : Nat} (h : entry l i = some pos) :
    i < l.length := by
  by_contra hc
  rw [entry_of_length_le (Nat.le_of_not_lt hc)] at h
  cases h

theorem entry_append_replicate (l : List (Option Nat)) (k i : Nat) :
    entry (l ++ List.replicate k none) i = entry l i := by
  unfold entry
  rw [List.getElem?_append]
  by_cases h : i < l.length
  · simp [h]
  · rw [if_neg h, List.getElem?_eq_none (Nat.le_of_not_lt h), List.getElem?_replicate]
    split_ifs <;> rfl

theorem entry_set (l : List (Option Nat)) (k i : Nat) (x : Option Nat) :
    entry (l.set k x) i = if k = i then (if k < l.length then x else none) else entry l i := by
  unfold entry
  rw [List.getElem?_set]
  by_cases h : k = i
  · subst h
    by_cases hk : k < l.length
    · simp only [if_pos hk, if_true]
      cases x <;> rfl
    · simp [hk]
  · simp only [if_neg h]

theorem wf_iff (s : SparseSet α) : s.wf = true ↔ s.Inv := by
  unfold wf Inv
  rw [Bool.and_eq_true, List.all_eq_true, List.all_eq_true]
  constructor
  · rintro ⟨h1, h2⟩
    refine ⟨fun i pos hi => ?_, fun pos e he => ?_⟩
    · have hlt : i < s.sparse.length := entry_lt_length hi
      have := h1 i (List.mem_range.mpr hlt)
      rw [hi] at this
      simpa using this
    · have hlt : pos < s.dense.length := by
        rcases List.getElem?_eq_some.mp he with ⟨h, _⟩
        exact h
      have := h2 pos (List.mem_range.mpr hlt)
      rw [he] at this
      simpa using this
  · rintro ⟨h1, h2⟩
    refine ⟨fun i _ => ?_, fun pos _ => ?_⟩
    · cases hi : s.slot i with
      | none => rfl
      | some pos => simpa using h1 i pos hi
    · cases he : s.dense[pos]? with
      | none => rfl
      | some e => simpa using h2 pos e he

theorem contains_iff (s : SparseSet α) (i : Nat) :
    s.contains i = true ↔ ∃ pos, s.slot i = some pos := by
  unfold contains
  cases s.slot i <;> simp

theorem contains_false_iff (s : SparseSet α) (i : Nat) :
    s.contains i = false ↔ s.slot i = none := by
  unfold contains
  cases s.slot i <;> simp

theorem inv_empty : (empty : SparseSet α).Inv := by
  constructor
  · intro i pos h
    simp [slot, empty, entry] at h
  · intro pos e h
    simp [empty] at h

/-! ### emplace -/

theorem emplace_eq {s : SparseSet α} {i : Nat} (h : s.contains i = false) (v : α) :
    s.emplace i v = some
      { sparse := (s.sparse ++ List.replicate (i + 1 - s.sparse.length) none).set i
          (some s.dense.length)
        dense := s.dense ++ [(i, v)] } := by
  simp [emplace, h]

theorem slot_emplace {s s1 : SparseSet α} {i : Nat} {v : α} (h : s.emplace i v = some s1)
    (j : Nat) : s1.slot j = if i = j then some s.dense.length else s.slot j := by
  unfold emplace at h
  split at h
  · cases h
  · cases h
    simp only [slot]
    rw [entry_set, entry_append_replicate]
    have hlen : i < (s.sparse ++ List.replicate (i + 1 - s.sparse.length) none).length := by
      rw [List.length_append, List.length_replicate]
      omega
    simp only [if_pos hlen]

theorem dense_emplace {s s1 : SparseSet α} {i : Nat} {v : α} (h : s.emplace i v = some s1) :
    s1.dense = s.dense ++ [(i, v)] := by
  unfold emplace at h
  split at h
  · cases h
  · cases h
    rfl

theorem emplace_not_contains {s s1 : SparseSet α} {i : Nat} {v : α}
    (h : s.emplace i v = some s1) : s.contains i = false := by
  unfold emplace at h
  split at h
  · cases h
  · simpa using ‹¬ s.contains i = true›

theorem inv_emplace {s s1 : SparseSet α} {i : Nat} {v : α} (hs : s.Inv)
    (h : s.emplace i v = some s1) : s1.Inv := by
  have hni : s.slot i = none := (contains_false_iff s i).mp (emplace_not_contains h)
  constructor
  · intro j pos hj
    rw [slot_emplace h] at hj
    rw [dense_emplace h]
    by_cases hij : i = j
    · subst hij
      rw [if_pos rfl] at hj
      cases hj
      simp
    · rw [if_neg hij] at hj
      have := hs.1 j pos hj
      have hlt : pos < s.dense.length := by
        by_contra hc
        rw [List.getElem?_eq_none (Nat.le_of_not_lt hc)] at this
        cases this
      rw [List.getElem?_append_left hlt]
      exact this
  · intro pos e he
    rw [dense_emplace h] at he
    rw [slot_emplace h]
    by_cases hlt : pos < s.dense.length
    · rw [List.getElem?_append_left hlt] at he
      have := hs.2 pos e he
      by_cases hie : i = e.1
      · rw [← hie, hni] at this
        cases this
      · rw [if_neg hie]
        exact this
    · have hle : s.dense.length ≤ pos := Nat.le_of_not_lt hlt
      rw [List.getElem?_append_right hle] at he
      have hpos : pos = s.dense.length := by
        by_contra hne
        have : 1 ≤ pos - s.dense.length := by omega
        rw [List.getElem?_eq_none (by simpa using this)] at he
        cases he
      subst hpos
      simp at he
      subst he
      simp

/-! ### erase -/

theorem slot_lt_dense {s : SparseSet α} (hs : s.Inv) {i pos : Nat} (h : s.slot i = some pos) :
    pos < s.dense.length := by
  have := hs.1 i pos h
  by_contra hc
  rw [List.getElem?_eq_none (Nat.le_of_not_lt hc)] at this
  cases this

theorem erase_eq {s : SparseSet α} (hs : s.Inv) {i pos : Nat} (h : s.slot i = some pos) :
    ∃ last, s.dense[s.dense.length - 1]? = some last ∧
      s.erase i = some
        { sparse := (s.sparse.set last.1 (some pos)).set i none
          dense := (s.dense.set pos last).dropLast } := by
  have hlt := slot_lt_dense hs h
  have hl : s.dense.length - 1 < s.dense.length := by omega
  refine ⟨s.dense[s.dense.length - 1], List.getElem?_eq_getElem hl, ?_⟩
  unfold erase
  rw [h, List.getLast?_eq_getElem?, List.getElem?_eq_getElem hl]

theorem slot_erase {s : SparseSet α} (hs : s.Inv) {last : Nat × α} {pos : Nat}
    (hlast : s.dense[s.dense.length - 1]? = some last) (i j : Nat) :
    entry ((s.sparse.set last.1 (some pos)).set i none) j =
      if i = j then none else if last.1 = j then some pos else s.slot j := by
  have hl : last.1 < s.sparse.length := entry_lt_length (hs.2 _ _ hlast)
  rw [entry_set, entry_set]
  by_cases hij : i = j
  · simp [hij]
  · simp [hij, hl, slot]

theorem dense_erase (l : List (Nat × α)) (pos q : Nat) (last : Nat × α) :
    ((l.set pos last).dropLast)[q]? =
      if q < l.length - 1 then (if pos = q then some last else l[q]?) else none := by
  rw [List.getElem?_dropLast, List.length_set, List.getElem?_set]
  by_cases hq : q < l.length - 1
  · simp only [if_pos hq]
    by_cases hp : pos = q
    · have : pos < l.length := by omega
      simp [hp, this]
      omega
    · simp [hp]
  · simp [hq]

theorem inv_erase {s s1 : SparseSet α} {i : Nat} (hs : s.Inv) (h : s.erase i = some s1) :
    s1.Inv := by
  have hc : ∃ pos, s.slot i = some pos := by
    unfold erase at h
    cases hsl : s.slot i with
    | none => rw [hsl] at h; simp at h
    | some pos => exact ⟨pos, rfl⟩
  obtain ⟨pos, hpos⟩ := hc
  obtain ⟨last, hlast, he⟩ := erase_eq hs hpos
  rw [he] at h
  cases h
  have hposd := hs.1 i pos hpos
  have hslast := hs.2 _ _ hlast
  have hpl := slot_lt_dense hs hpos
  constructor
  · intro j p hj
    simp only [slot] at hj
    rw [slot_erase hs hlast] at hj
    simp only []
    rw [dense_erase]
    by_cases hij : i = j
    · rw [if_pos hij] at hj
      cases hj
    · rw [if_neg hij] at hj
      by_cases hlj : last.1 = j
      · rw [if_pos hlj] at hj
        cases hj
        have hne : pos ≠ s.dense.length - 1 := by
          intro hpe
          rw [hpe, hlast] at hposd
          simp at hposd
          exact hij (hposd.symm.trans hlj)
        have hlt : pos < s.dense.length - 1 := by omega
        simp [hlt, hlj]
      · rw [if_neg hlj] at hj
        have hjd := hs.1 j p hj
        have hpl2 := slot_lt_dense hs hj
        have hne1 : p ≠ s.dense.length - 1 := by
          intro hpe
          rw [hpe, hlast] at hjd
          simp at hjd
          exact hlj hjd
        have hne2 : pos ≠ p := by
          intro hpe
          rw [← hpe, hposd] at hjd
          simp at hjd
          exact hij hjd
        have hlt : p < s.dense.length - 1 := by omega
        simp [hlt, hne2, hjd]
  · intro q e hq
    simp only [] at hq
    rw [dense_erase] at hq
    simp only [slot]
    rw [slot_erase hs hlast]
    by_cases hql : q < s.dense.length - 1
    · rw [if_pos hql] at hq
      by_cases hpq : pos = q
      · rw [if_pos hpq] at hq
        cases hq
        have hil : i ≠ last.1 := by
          intro hie
          rw [← hie, hpos] at hslast
          cases hslast
          omega
        simp [hil, hpq]
      · rw [if_neg hpq] at hq
        have hse := hs.2 q e hq
        have hie : i ≠ e.1 := by
          intro hie
          rw [← hie, hpos] at hse
          cases hse
          exact hpq rfl
        have hle : last.1 ≠ e.1 := by
          intro hle
          rw [← hle, hslast] at hse
          cases hse
          omega
        simp [hie, hle, hse]
    · rw [if_neg hql] at hq
      cases hq

/-! ### Retrieval -/

theorem access_emplace {s s1 : SparseSet α} {i : Nat} {v : α} (h : s.emplace i v = some s1) :
    s1.contains i = true ∧ s1.access i = some v := by
  have hsl : s1.slot i = some s.dense.length := by rw [slot_emplace h, if_pos rfl]
  refine ⟨(contains_iff s1 i).mpr ⟨_, hsl⟩, ?_⟩
  unfold access
  rw [hsl]
  simp only []
  rw [dense_emplace h]
  simp

theorem access_of_slot {s : SparseSet α} (hs : s.Inv) {i pos : Nat} (h : s.slot i = some pos) :
    ∃ v, s.dense[pos]? = some (i, v) ∧ s.access i = some v := by
  have hd := hs.1 i pos h
  cases hp : s.dense[pos]? with
  | none => rw [hp] at hd; cases hd
  | some e =>
    rw [hp] at hd
    simp at hd
    refine ⟨e.2, ?_, ?_⟩
    · rw [← hd]
    · unfold access
      rw [h]
      simp [hp]

theorem contains_erase_self {s s1 : SparseSet α} {i : Nat} (hs : s.Inv)
    (h : s.erase i = some s1) : s1.contains i = false := by
  cases hsl : s.slot i with
  | none => unfold erase at h; rw [hsl] at h; simp at h
  | some pos =>
    obtain ⟨last, hlast, he⟩ := erase_eq hs hsl
    rw [he] at h
    cases h
    rw [contains_false_iff]
    simp only [slot]
    rw [slot_erase hs hlast, if_pos rfl]

theorem size_erase {s s1 : SparseSet α} {i : Nat} (hs : s.Inv) (h : s.erase i = some s1) :
    s1.size + 1 = s.size := by
  cases hsl : s.slot i with
  | none => unfold erase at h; rw [hsl] at h; simp at h
  | some pos =>
    have hlt := slot_lt_dense hs hsl
    obtain ⟨last, _, he⟩ := erase_eq hs hsl
    rw [he] at h
    cases h
    simp only [size, List.length_dropLast, List.length_set]
    omega

theorem access_erase_other {s s1 : SparseSet α} {i j : Nat} (hs : s.Inv)
    (h : s.erase i = some s1) (hij : j ≠ i) (hj : s.contains j = true) :
    s1.contains j = true ∧ ∃ v, s.access j = some v ∧ s1.access j = some v := by
  have hs1 := inv_erase hs h
  obtain ⟨p, hp⟩ := (contains_iff s j).mp hj
  obtain ⟨v, hv, hacc⟩ := access_of_slot hs hp
  cases hsl : s.slot i with
  | none => unfold erase at h; rw [hsl] at h; simp at h
  | some pos =>
    obtain ⟨last, hlast, he⟩ := erase_eq hs hsl
    rw [he] at h
    cases h
    have hslast := hs.2 _ _ hlast
    have hposd := hs.1 i pos hsl
    have hpl := slot_lt_dense hs hsl
    have hpjl := slot_lt_dense hs hp
    -- the position of `j` after the erase
    have hex : ∃ q, entry ((s.sparse.set last.1 (some pos)).set i none) j = some q ∧
        ((s.dense.set pos last).dropLast)[q]? = some (j, v) := by
      rw [slot_erase hs hlast, if_neg (Ne.symm hij)]
      by_cases hlj : last.1 = j
      · rw [if_pos hlj]
        refine ⟨pos, rfl, ?_⟩
        have hp1 : p = s.dense.length - 1 := by
          rw [hlj, hp] at hslast
          exact Option.some.inj hslast
        have hlv : last = (j, v) := by
          rw [hp1, hlast] at hv
          exact Option.some.inj hv
        have hne : pos ≠ s.dense.length - 1 := by
          intro hpe
          rw [hpe, hlast, hlv] at hposd
          simp at hposd
          exact hij hposd
        rw [dense_erase, if_pos (by omega), if_pos rfl, hlv]
      · rw [if_neg hlj]
        refine ⟨p, hp, ?_⟩
        have hne1 : p ≠ s.dense.length - 1 := by
          intro hpe
          rw [hpe, hlast] at hv
          exact hlj (by rw [Option.some.inj hv])
        have hne2 : pos ≠ p := by
          intro hpe
          rw [hpe, hv] at hposd
          simp at hposd
          exact hij hposd
        rw [dense_erase, if_pos (by omega), if_neg hne2, hv]
    obtain ⟨q, hq, hqd⟩ := hex
    refine ⟨(contains_iff _ j).mpr ⟨q, hq⟩, v, hacc, ?_⟩
    unfold access
    simp only [slot]
    rw [hq]
    simp only []
    rw [hqd]
    rfl

theorem nodup_of_inv {s : SparseSet α} (hs : s.Inv) : (s.dense.map Prod.fst).Nodup := by
  rw [List.nodup_iff_getElem?_ne_getElem?]
  intro p q hpq hq heq
  rw [List.length_map] at hq
  have hp : p < s.dense.length := by omega
  rw [List.getElem?_map, List.getElem?_map, List.getElem?_eq_getElem hp,
    List.getElem?_eq_getElem hq] at heq
  simp only [Option.map_some'] at heq
  have h1 := hs.2 p _ (List.getElem?_eq_getElem hp)
  have h2 := hs.2 q _ (List.getElem?_eq_getElem hq)
  rw [Option.some.inj heq, h2] at h1
  have := Option.some.inj h1
  omega

end SparseSet

/-! ## Facts about the concrete store -/

namespace Storage

variable {C D α : Type}

theorem insert_of_absent (reflect : C → D) (s : Storage C D α) (e : Entity) (v : α)
    (h : s.entities.contains e.getIndex = false) :
    ∃ es, s.entities.emplace e.getIndex v = some es ∧
      s.insert reflect e v = .ok { s with entities := es } [] := by
  refine ⟨_, SparseSet.emplace_eq h v, ?_⟩
  simp [insert, h, SparseSet.emplace_eq h v]

theorem insert_of_present (reflect : C → D) (s : Storage C D α) (e : Entity) (v : α)
    (h : s.entities.contains e.getIndex = true) :
    s.insert reflect e v = .ok s [.hasComponent (s.getType reflect)] := by
  simp [insert, h]

theorem get_of_absent (reflect : C → D) (s : Storage C D α) (e : Entity)
    (h : s.entities.contains e.getIndex = false) :
    s.get reflect e = .ok none [.lacksComponent (s.getType reflect)] := by
  simp [get, h]

theorem get_of_access (reflect : C → D) (s : Storage C D α) (e : Entity) (v : α)
    (h : s.entities.contains e.getIndex = true) (ha : s.entities.access e.getIndex = some v) :
    s.get reflect e = .ok (some v) [] := by
  simp [get, h, ha]

theorem remove_of_absent (reflect : C → D) (s : Storage C D α) (e : Entity)
    (h : s.entities.contains e.getIndex = false) :
    s.remove reflect e = .ok s [.lacksComponent (s.getType reflect)] := by
  simp [remove, h]

theorem remove_of_present (reflect : C → D) (s : Storage C D α) (e : Entity)
    (hs : s.entities.Inv) (h : s.entities.contains e.getIndex = true) :
    ∃ es, s.entities.erase e.getIndex = some es ∧
      s.remove reflect e = .ok { s with entities := es } [] := by
  obtain ⟨pos, hpos⟩ := (SparseSet.contains_iff _ _).mp h
  obtain ⟨last, _, he⟩ := SparseSet.erase_eq hs hpos
  refine ⟨_, he, ?_⟩
  simp [remove, h, he]

theorem inv_new (reflect : C → D) (T : C) : (new reflect T : Storage C D α).entities.Inv :=
  SparseSet.inv_empty

/-- From a store whose sparse set satisfies its invariant every call returns normally, and
it leaves the invariant, the template parameter and the member `type` as they were. -/
theorem step_ok (reflect : C → D) (s : Storage C D α) (hs : s.entities.Inv) (op : Op α) :
    ∃ s1 log, s.step reflect op = .ok s1 log ∧ s1.entities.Inv ∧ s1.T = s.T ∧
      s1.type = s.type := by
  cases op with
  | insert e v =>
    cases h : s.entities.contains e.getIndex with
    | true => exact ⟨s, _, insert_of_present reflect s e v h, hs, rfl, rfl⟩
    | false =>
      obtain ⟨es, hes, hins⟩ := insert_of_absent reflect s e v h
      exact ⟨_, _, hins, SparseSet.inv_emplace hs hes, rfl, rfl⟩
  | get e =>
    cases h : s.entities.contains e.getIndex with
    | true =>
      obtain ⟨pos, hpos⟩ := (SparseSet.contains_iff _ _).mp h
      obtain ⟨v, _, hv⟩ := SparseSet.access_of_slot hs hpos
      refine ⟨s, [], ?_, hs, rfl, rfl⟩
      simp [step, get_of_access reflect s e v h hv]
    | false =>
      refine ⟨s, [.lacksComponent (s.getType reflect)], ?_, hs, rfl, rfl⟩
      simp only [step, get_of_absent reflect s e h]
  | remove e =>
    cases h : s.entities.contains e.getIndex with
    | true =>
      obtain ⟨es, hes, hrem⟩ := remove_of_present reflect s e hs h
      exact ⟨_, _, hrem, SparseSet.inv_erase hs hes, rfl, rfl⟩
    | false => exact ⟨s, _, remove_of_absent reflect s e h, hs, rfl, rfl⟩

theorem run_ok (reflect : C → D) (ops : List (Op α)) :
    ∀ s : Storage C D α, s.entities.Inv →
      ∃ s1, s.run reflect ops = some s1 ∧ s1.entities.Inv ∧ s1.T = s.T ∧ s1.type = s.type := by
  induction ops with
  | nil => intro s hs; exact ⟨s, rfl, hs, rfl, rfl⟩
  | cons op ops ih =>
    intro s hs
    obtain ⟨s1, log, hstep, hs1, hT, hty⟩ := step_ok reflect s hs op
    obtain ⟨s2, hrun, hs2, hT2, hty2⟩ := ih s1 hs1
    refine ⟨s2, ?_, hs2, hT2.trans hT, hty2.trans hty⟩
    simp only [run, hstep, hrun]

end Storage

/-! ## Facts about the registry -/

namespace Registry

variable {C D G α : Type}

theorem found_assign (r : Registry C D α) (id : Nat) (value : Storage C D α) :
    (r.assign id value).found id = true := by
  simp [found, assign]

variable [DecidableEq C]

theorem staticId_memo (generate : G → Nat × G) (T : C) (p : Process C G) :
    (staticId generate T p).2.id T = some (staticId generate T p).1 := by
  unfold staticId
  cases h : p.id T with
  | some id => simpa using h
  | none => simp

theorem staticId_of_some (generate : G → Nat × G) (T : C) (p : Process C G) (id : Nat)
    (h : p.id T = some id) : staticId generate T p = (id, p) := by
  simp [staticId, h]

theorem registerComponent_of_found (generate : G → Nat × G) (reflect : C → D) (T : C)
    (p : Process C G) (r : Registry C D α) (id : Nat) (hp : p.id T = some id)
    (hr : r.found id = true) :
    registerComponent generate reflect T p r
      = { id := id, log := [.alreadyRegistered id], process := p, registry := r } := by
  simp [registerComponent, staticId_of_some generate T p id hp, hr]

theorem registerComponent_spec (generate : G → Nat × G) (reflect : C → D) (T : C)
    (p : Process C G) (r : Registry C D α) :
    (registerComponent generate reflect T p r).process.id T
        = some (registerComponent generate reflect T p r).id ∧
      (registerComponent generate reflect T p r).registry.found
        (registerComponent generate reflect T p r).id = true := by
  unfold registerComponent
  by_cases h : r.found (staticId generate T p).1 = true
  · rw [if_pos h]
    exact ⟨staticId_memo generate T p, h⟩
  · rw [if_neg h]
    exact ⟨staticId_memo generate T p, found_assign _ _ _⟩

end Registry

/-! ## The claims on the store -/

section Claims

variable {C D α : Type}

/-- C1: for every store, every entity `e` holding no component in it and every value `v`,
`insert(e, v)` is accepted, after it the untyped `get(e)` returns a pointer that is not
null and points at `v`, and the typed `insert<T>`/`get<T>` (with the store's own `T`, in
both assertion modes) behave the same way: `get<T>(e)` returns `v`. -/
theorem Storage.insert_then_get [DecidableEq D] (reflect : C → D) (s : Storage C D α)
    (e : Entity) (v : α) (h : s.entities.contains e.getIndex = false) :
    ∃ s1, s.insert reflect e v = .ok s1 [] ∧
      s1.get reflect e = .ok (some v) [] ∧
      ∀ assertsOn, Dashboard.insert assertsOn reflect s.T s e v = .ok s1 [] ∧
        Dashboard.get assertsOn reflect s.T s1 e = .ok v [] := by
  obtain ⟨es, hes, hins⟩ := Storage.insert_of_absent reflect s e v h
  obtain ⟨hc, ha⟩ := SparseSet.access_emplace hes
  have hget : ({ s with entities := es } : Storage C D α).get reflect e = .ok (some v) [] :=
    Storage.get_of_access reflect _ e v hc ha
  refine ⟨_, hins, hget, fun assertsOn => ⟨?_, ?_⟩⟩
  · simp [Dashboard.insert, IO_ASSERT_MSG, Storage.getType, hins]
  · simp [Dashboard.get, IO_ASSERT_MSG, Storage.getType, hget]

/-- Witness of C1: entity 3 and value 5 on the freshly constructed store. -/
theorem Storage.insert_then_get_witness :
    (Storage.new id 0 : Storage Nat Nat Nat).entities.contains (Entity.getIndex ⟨3⟩) = false ∧
    ∃ s1, (Storage.new id 0 : Storage Nat Nat Nat).insert id ⟨3⟩ 5 = .ok s1 [] ∧
      s1.get id ⟨3⟩ = .ok (some 5) [] ∧
      ∀ assertsOn,
        Dashboard.insert assertsOn id (Storage.new id 0 : Storage Nat Nat Nat).T
          (Storage.new id 0) ⟨3⟩ 5 = .ok s1 [] ∧
        Dashboard.get assertsOn id (Storage.new id 0 : Storage Nat Nat Nat).T s1 ⟨3⟩
          = .ok 5 [] :=
  ⟨by decide, Storage.insert_then_get id (Storage.new id 0) ⟨3⟩ 5 (by decide)⟩

/-- C2: for every store, entity `e` absent from it and values `v1`, `v2`, the first
`insert(e, v1)` is accepted and the second `insert(e, v2)` returns normally with the whole
store equal to the state after the first insert (one diagnostic is logged); `get(e)` still
returns `v1`. -/
theorem Storage.insert_twice (reflect : C → D) (s : Storage C D α) (e : Entity) (v1 v2 : α)
    (h : s.entities.contains e.getIndex = false) :
    ∃ s1, s.insert reflect e v1 = .ok s1 [] ∧
      s1.insert reflect e v2 = .ok s1 [.hasComponent (s1.getType reflect)] ∧
      s1.get reflect e = .ok (some v1) [] := by
  obtain ⟨es, hes, hins⟩ := Storage.insert_of_absent reflect s e v1 h
  obtain ⟨hc, ha⟩ := SparseSet.access_emplace hes
  exact ⟨_, hins, Storage.insert_of_present reflect _ e v2 hc,
    Storage.get_of_access reflect _ e v1 hc ha⟩

/-- Witness of C2: entity 3 with values 5 then 9 on the freshly constructed store. -/
theorem Storage.insert_twice_witness :
    (Storage.new id 0 : Storage Nat Nat Nat).entities.contains (Entity.getIndex ⟨3⟩) = false ∧
    ∃ s1, (Storage.new id 0 : Storage Nat Nat Nat).insert id ⟨3⟩ 5 = .ok s1 [] ∧
      s1.insert id ⟨3⟩ 9 = .ok s1 [.hasComponent (s1.getType id)] ∧
      s1.get id ⟨3⟩ = .ok (some 5) [] :=
  ⟨by decide, Storage.insert_twice id (Storage.new id 0) ⟨3⟩ 5 9 (by decide)⟩

/-- C3: for every store whose sparse set passes the invariant check `wf` and every entity `e`,
holding a component or not, `remove(e)` returns normally and afterwards the untyped
`get(e)` returns the null pointer (with its diagnostic), not a stored value. -/
theorem Storage.remove_then_get (reflect : C → D) (s : Storage C D α) (e : Entity)
    (hwf : s.entities.wf = true) :
    ∃ s1 log, s.remove reflect e = .ok s1 log ∧
      s1.get reflect e = .ok none [.lacksComponent (s.getType reflect)] := by
  have hs : s.entities.Inv := (SparseSet.wf_iff _).mp hwf
  cases h : s.entities.contains e.getIndex with
  | false =>
    exact ⟨s, _, Storage.remove_of_absent reflect s e h, Storage.get_of_absent reflect s e h⟩
  | true =>
    obtain ⟨es, hes, hrem⟩ := Storage.remove_of_present reflect s e hs h
    refine ⟨_, _, hrem, ?_⟩
    exact Storage.get_of_absent reflect _ e (SparseSet.contains_erase_self hs hes)

/-- Witness of C3: a store holding entities 3 and 1, from which 3 is removed. -/
theorem Storage.remove_then_get_witness :
    (⟨[none, some 1, none, some 0], [(3, 5), (1, 7)]⟩ : SparseSet Nat).wf = true ∧
    ∃ s1 log,
      (⟨0, ⟨[none, some 1, none, some 0], [(3, 5), (1, 7)]⟩, 0⟩ : Storage Nat Nat Nat).remove
        id ⟨3⟩ = .ok s1 log ∧
      s1.get id ⟨3⟩ = .ok none [.lacksComponent 0] :=
  ⟨by decide, Storage.remove_then_get id ⟨0, ⟨[none, some 1, none, some 0], [(3, 5), (1, 7)]⟩, 0⟩
    ⟨3⟩ (by decide)⟩

/-- C4: for every store and every entity `e` holding no component in it, `remove(e)`
returns normally and the store after the call equals the store before; one diagnostic
is logged. -/
theorem Storage.remove_absent_noop (reflect : C → D) (s : Storage C D α) (e : Entity)
    (h : s.entities.contains e.getIndex = false) :
    s.remove reflect e = .ok s [.lacksComponent (s.getType reflect)] :=
  Storage.remove_of_absent reflect s e h

/-- Witness of C4: entity 2 is removed from a store holding entities 3 and 1. -/
theorem Storage.remove_absent_noop_witness :
    (⟨0, ⟨[none, some 1, none, some 0], [(3, 5), (1, 7)]⟩, 0⟩ :
        Storage Nat Nat Nat).entities.contains (Entity.getIndex ⟨2⟩) = false ∧
    (⟨0, ⟨[none, some 1, none, some 0], [(3, 5), (1, 7)]⟩, 0⟩ : Storage Nat Nat Nat).remove
        id ⟨2⟩ =
      .ok ⟨0, ⟨[none, some 1, none, some 0], [(3, 5), (1, 7)]⟩, 0⟩ [.lacksComponent 0] :=
  ⟨by decide, Storage.remove_absent_noop id
    ⟨0, ⟨[none, some 1, none, some 0], [(3, 5), (1, 7)]⟩, 0⟩ ⟨2⟩ (by decide)⟩

/-- C5: for every store whose sparse set passes the invariant check `wf` and every entity
`e` it contains, `Storage::remove(e)` erases `e`: the index of `e` is no longer contained, the
number of stored elements has decreased by exactly one, and every other index that was
contained is still contained and retrieves its original value. -/
theorem Storage.remove_frame (reflect : C → D) (s : Storage C D α) (e : Entity)
    (hwf : s.entities.wf = true) (h : s.entities.contains e.getIndex = true) :
    ∃ s1, s.remove reflect e = .ok s1 [] ∧
      s1.entities.contains e.getIndex = false ∧
      s1.entities.size + 1 = s.entities.size ∧
      ∀ j, j ≠ e.getIndex → s.entities.contains j = true →
        s1.entities.contains j = true ∧
        ∃ v, s.entities.access j = some v ∧ s1.entities.access j = some v := by
  have hs : s.entities.Inv := (SparseSet.wf_iff _).mp hwf
  obtain ⟨es, hes, hrem⟩ := Storage.remove_of_present reflect s e hs h
  exact ⟨_, hrem, SparseSet.contains_erase_self hs hes, SparseSet.size_erase hs hes,
    fun j hj hc => SparseSet.access_erase_other hs hes hj hc⟩

/-- Witness of C5: entity 3 is removed from a store holding entities 3, 1 and 5. -/
theorem Storage.remove_frame_witness :
    (⟨[none, some 1, none, some 0, none, some 2], [(3, 5), (1, 7), (5, 9)]⟩ :
        SparseSet Nat).wf = true ∧
    (⟨[none, some 1, none, some 0, none, some 2], [(3, 5), (1, 7), (5, 9)]⟩ :
        SparseSet Nat).contains (Entity.getIndex ⟨3⟩) = true ∧
    ∃ s1,
      (⟨0, ⟨[none, some 1, none, some 0, none, some 2], [(3, 5), (1, 7), (5, 9)]⟩, 0⟩ :
          Storage Nat Nat Nat).remove id ⟨3⟩ = .ok s1 [] ∧
      s1.entities.contains (Entity.getIndex ⟨3⟩) = false ∧
      s1.entities.size + 1 = 3 ∧
      ∀ j, j ≠ Entity.getIndex ⟨3⟩ →
        (⟨[none, some 1, none, some 0, none, some 2], [(3, 5), (1, 7), (5, 9)]⟩ :
          SparseSet Nat).contains j = true →
        s1.entities.contains j = true ∧
        ∃ v, (⟨[none, some 1, none, some 0, none, some 2], [(3, 5), (1, 7), (5, 9)]⟩ :
          SparseSet Nat).access j = some v ∧ s1.entities.access j = some v :=
  ⟨by decide, by decide, Storage.remove_frame id
    ⟨0, ⟨[none, some 1, none, some 0, none, some 2], [(3, 5), (1, 7), (5, 9)]⟩, 0⟩ ⟨3⟩
    (by decide) (by decide)⟩

/-- C6: the typed accessor applied to an entity without a component. On the freshly
constructed store the untyped `get` of entity 0 returns the null pointer, and `get<T>` of
the store's own type dereferences it, with and without assertions; no check stands
between the two. -/
theorem Dashboard.get_absent_dereferences_null :
    (Storage.new id 0 : Storage Nat Nat Nat).get id ⟨0⟩ = .ok none [.lacksComponent 0] ∧
    Dashboard.get true id 0 (Storage.new id 0 : Storage Nat Nat Nat) ⟨0⟩
      = .abort .nullDeref ∧
    Dashboard.get false id 0 (Storage.new id 0 : Storage Nat Nat Nat) ⟨0⟩
      = .abort .nullDeref := by
  decide

/-- C8 as stated fails: without `IO_ASSERTS_ON` a typed access with a mismatched type is
not stopped. On a store bound to type 0, `insert<U>` with `U` of descriptor 1 reaches the
untyped insert and modifies the store, and `get<U>` reads the stored component. -/
theorem Dashboard.mismatch_not_checked_without_asserts :
    (id 1 : Nat) ≠ (Storage.new id 0 : Storage Nat Nat Nat).getType id ∧
    Dashboard.insert false id 1 (Storage.new id 0 : Storage Nat Nat Nat) ⟨0⟩ 5
      = .ok ⟨0, ⟨[some 0], [(0, 5)]⟩, 0⟩ [] ∧
    Dashboard.get false id 1 (⟨0, ⟨[some 0], [(0, 5)]⟩, 0⟩ : Storage Nat Nat Nat) ⟨0⟩
      = .ok 5 [] := by
  decide

/-- C8, amended: with `IO_ASSERTS_ON` defined, for every store and every component type
`U` whose descriptor differs from the store's, each typed access `get<U>(e)` and
`insert<U>(e, v)` ends in the assertion failure "Component type mismatch"; the untyped
primitive is not reached, whatever the state of the store. -/
theorem Dashboard.mismatch_asserts [DecidableEq D] (reflect : C → D) (U : C)
    (s : Storage C D α) (e : Entity) (v : α) (h : reflect U ≠ s.getType reflect) :
    Dashboard.get true reflect U s e = .abort (.assertFail "Component type mismatch") ∧
    Dashboard.insert true reflect U s e v
      = .abort (.assertFail "Component type mismatch") := by
  simp [Dashboard.get, Dashboard.insert, IO_ASSERT_MSG, h]

/-- Witness of the amended C8: descriptor 1 against a store bound to descriptor 0. -/
theorem Dashboard.mismatch_asserts_witness :
    (id 1 : Nat) ≠ (Storage.new id 0 : Storage Nat Nat Nat).getType id ∧
    (Dashboard.get true id 1 (Storage.new id 0 : Storage Nat Nat Nat) ⟨0⟩
        = .abort (.assertFail "Component type mismatch") ∧
      Dashboard.insert true id 1 (Storage.new id 0 : Storage Nat Nat Nat) ⟨0⟩ 5
        = .abort (.assertFail "Component type mismatch")) :=
  ⟨by decide, Dashboard.mismatch_asserts id 1 (Storage.new id 0) ⟨0⟩ 5 (by decide)⟩

/-- C7: for every process and registry state and every component type `T`, once a first
call of `registerComponent<T>()` has returned its identifier, a later call returns the same
identifier, logs the "already registered" diagnostic, and returns the registry it was
given, unchanged: the same map, hence the same number of stores, and the store found under
the identifier is the one that was there, with whatever it contains. This holds for the
call made in any later state `p2`, `r2` in which the identifier of `T` is still the one
returned and the map still holds a store under it, and the state the first call leaves is
such a state, so it holds for the call made right after the first. -/
theorem Registry.registerComponent_twice {G : Type} [DecidableEq C] (generate : G → Nat × G)
    (reflect : C → D) (T : C) (p : Process C G) (r : Registry C D α)
    (p2 : Process C G) (r2 : Registry C D α)
    (hp2 : p2.id T = some (registerComponent generate reflect T p r).id)
    (hr2 : r2.found (registerComponent generate reflect T p r).id = true) :
    registerComponent generate reflect T p2 r2
      = { id := (registerComponent generate reflect T p r).id
          log := [.alreadyRegistered (registerComponent generate reflect T p r).id]
          process := p2
          registry := r2 } ∧
    (registerComponent generate reflect T p2 r2).registry.store.lookup
        (registerComponent generate reflect T p r).id
      = r2.store.lookup (registerComponent generate reflect T p r).id ∧
    (registerComponent generate reflect T p r).process.id T
      = some (registerComponent generate reflect T p r).id ∧
    (registerComponent generate reflect T p r).registry.found
      (registerComponent generate reflect T p r).id = true ∧
    (registerComponent generate reflect T
        (registerComponent generate reflect T p r).process
        (registerComponent generate reflect T p r).registry).id
      = (registerComponent generate reflect T p r).id ∧
    (registerComponent generate reflect T
        (registerComponent generate reflect T p r).process
        (registerComponent generate reflect T p r).registry).registry
      = (registerComponent generate reflect T p r).registry ∧
    (registerComponent generate reflect T
        (registerComponent generate reflect T p r).process
        (registerComponent generate reflect T p r).registry).registry.store.length
      = (registerComponent generate reflect T p r).registry.store.length ∧
    (registerComponent generate reflect T
        (registerComponent generate reflect T p r).process
        (registerComponent generate reflect T p r).registry).log
      = [.alreadyRegistered (registerComponent generate reflect T p r).id] := by
  obtain ⟨hp, hr⟩ := Registry.registerComponent_spec generate reflect T p r
  have h2 := Registry.registerComponent_of_found generate reflect T p2 r2 _ hp2 hr2
  refine ⟨h2, by rw [h2], hp, hr, ?_⟩
  rw [Registry.registerComponent_of_found generate reflect T _ _ _ hp hr]
  exact ⟨rfl, rfl, rfl, rfl⟩

/-- Witness of C7: type 0 is registered in a fresh registry of a fresh process, with the
generator returning 0, 1, 2, ...; the later call is made on a registry whose store under
identifier 0 holds the components of entities 3 and 1. -/
theorem Registry.registerComponent_twice_witness :
    (Registry.registerComponent countingGenerator id (0 : Nat) (Process.start 0)
        (Registry.new : Registry Nat Nat Nat)).process.id 0
      = some (Registry.registerComponent countingGenerator id (0 : Nat) (Process.start 0)
        (Registry.new : Registry Nat Nat Nat)).id ∧
    (⟨[(0, ⟨0, ⟨[none, some 1, none, some 0], [(3, 5), (1, 7)]⟩, 0⟩)]⟩ :
        Registry Nat Nat Nat).found
      (Registry.registerComponent countingGenerator id (0 : Nat) (Process.start 0)
        (Registry.new : Registry Nat Nat Nat)).id = true ∧
    ((Registry.registerComponent countingGenerator id (0 : Nat)
        (Registry.registerComponent countingGenerator id (0 : Nat) (Process.start 0)
        (Registry.new : Registry Nat Nat Nat)).process
        (⟨[(0, ⟨0, ⟨[none, some 1, none, some 0], [(3, 5), (1, 7)]⟩, 0⟩)]⟩ :
        Registry Nat Nat Nat))
      = { id := (Registry.registerComponent countingGenerator id (0 : Nat) (Process.start 0)
        (Registry.new : Registry Nat Nat Nat)).id
          log := [.alreadyRegistered (Registry.registerComponent countingGenerator id (0 : Nat) (Process.start 0)
        (Registry.new : Registry Nat Nat Nat)).id]
          process := (Registry.registerComponent countingGenerator id (0 : Nat) (Process.start 0)
        (Registry.new : Registry Nat Nat Nat)).process
          registry := (⟨[(0, ⟨0, ⟨[none, some 1, none, some 0], [(3, 5), (1, 7)]⟩, 0⟩)]⟩ :
        Registry Nat Nat Nat) } ∧
    (Registry.registerComponent countingGenerator id (0 : Nat)
        (Registry.registerComponent countingGenerator id (0 : Nat) (Process.start 0)
        (Registry.new : Registry Nat Nat Nat)).process
        (⟨[(0, ⟨0, ⟨[none, some 1, none, some 0], [(3, 5), (1, 7)]⟩, 0⟩)]⟩ :
        Registry Nat Nat Nat)).registry.store.lookup
        (Registry.registerComponent countingGenerator id (0 : Nat) (Process.start 0)
        (Registry.new : Registry Nat Nat Nat)).id
      = (⟨[(0, ⟨0, ⟨[none, some 1, none, some 0], [(3, 5), (1, 7)]⟩, 0⟩)]⟩ :
        Registry Nat Nat Nat).store.lookup
        (Registry.registerComponent countingGenerator id (0 : Nat) (Process.start 0)
        (Registry.new : Registry Nat Nat Nat)).id ∧
    (Registry.registerComponent countingGenerator id (0 : Nat) (Process.start 0)
        (Registry.new : Registry Nat Nat Nat)).process.id 0
      = some (Registry.registerComponent countingGenerator id (0 : Nat) (Process.start 0)
        (Registry.new : Registry Nat Nat Nat)).id ∧
    (Registry.registerComponent countingGenerator id (0 : Nat) (Process.start 0)
        (Registry.new : Registry Nat Nat Nat)).registry.found
      (Registry.registerComponent countingGenerator id (0 : Nat) (Process.start 0)
        (Registry.new : Registry Nat Nat Nat)).id = true ∧
    (Registry.registerComponent countingGenerator id (0 : Nat)
        (Registry.registerComponent countingGenerator id (0 : Nat) (Process.start 0)
        (Registry.new : Registry Nat Nat Nat)).process
        (Registry.registerComponent countingGenerator id (0 : Nat) (Process.start 0)
        (Registry.new : Registry Nat Nat Nat)).registry).id
      = (Registry.registerComponent countingGenerator id (0 : Nat) (Process.start 0)
        (Registry.new : Registry Nat Nat Nat)).id ∧
    (Registry.registerComponent countingGenerator id (0 : Nat)
        (Registry.registerComponent countingGenerator id (0 : Nat) (Process.start 0)
        (Registry.new : Registry Nat Nat Nat)).process
        (Registry.registerComponent countingGenerator id (0 : Nat) (Process.start 0)
        (Registry.new : Registry Nat Nat Nat)).registry).registry
      = (Registry.registerComponent countingGenerator id (0 : Nat) (Process.start 0)
        (Registry.new : Registry Nat Nat Nat)).registry ∧
    (Registry.registerComponent countingGenerator id (0 : Nat)
        (Registry.registerComponent countingGenerator id (0 : Nat) (Process.start 0)
        (Registry.new : Registry Nat Nat Nat)).process
        (Registry.registerComponent countingGenerator id (0 : Nat) (Process.start 0)
        (Registry.new : Registry Nat Nat Nat)).registry).registry.store.length
      = (Registry.registerComponent countingGenerator id (0 : Nat) (Process.start 0)
        (Registry.new : Registry Nat Nat Nat)).registry.store.length ∧
    (Registry.registerComponent countingGenerator id (0 : Nat)
        (Registry.registerComponent countingGenerator id (0 : Nat) (Process.start 0)
        (Registry.new : Registry Nat Nat Nat)).process
        (Registry.registerComponent countingGenerator id (0 : Nat) (Process.start 0)
        (Registry.new : Registry Nat Nat Nat)).registry).log
      = [.alreadyRegistered (Registry.registerComponent countingGenerator id (0 : Nat) (Process.start 0)
        (Registry.new : Registry Nat Nat Nat)).id]) :=
  ⟨by decide, by decide,
    Registry.registerComponent_twice countingGenerator id (0 : Nat) (Process.start 0)
      (Registry.new : Registry Nat Nat Nat)
      (Registry.registerComponent countingGenerator id (0 : Nat) (Process.start 0)
        (Registry.new : Registry Nat Nat Nat)).process
      ⟨[(0, ⟨0, ⟨[none, some 1, none, some 0], [(3, 5), (1, 7)]⟩, 0⟩)]⟩
      (by decide) (by decide)⟩

/-- C9: for every sequence of `insert`, `get` and `remove` calls applied to a freshly
constructed `Storage<T>`, every call returns and in the state reached `getType()` is the
reflected descriptor of `T`, as is the member `type`. Each state before or after a call
of a sequence is the state reached by a shorter sequence, so the statement covers all
of them. -/
theorem Storage.getType_run (reflect : C → D) (T : C) (ops : List (Op α)) :
    ∃ s, (Storage.new reflect T : Storage C D α).run reflect ops = some s ∧
      s.getType reflect = reflect T ∧ s.type = reflect T := by
  obtain ⟨s, hrun, _, hT, hty⟩ := Storage.run_ok reflect ops (Storage.new reflect T)
    (Storage.inv_new reflect T)
  refine ⟨s, hrun, ?_, ?_⟩
  · simp only [Storage.getType, hT]
    rfl
  · rw [hty]
    rfl

/-- C10: in every state reached from the freshly constructed store by a sequence of calls
(`insert` and `remove`, and also `get`, which changes nothing), the entity indices of the
stored (entity-index, value) pairs are pairwise distinct: each entity index occurs in at
most one pair. Every such sequence runs to its end. -/
theorem Storage.run_nodup (reflect : C → D) (T : C) (ops : List (Op α)) :
    ∃ s, (Storage.new reflect T : Storage C D α).run reflect ops = some s ∧
      (s.entities.dense.map Prod.fst).Nodup := by
  obtain ⟨s, hrun, hs, _, _⟩ := Storage.run_ok reflect ops (Storage.new reflect T)
    (Storage.inv_new reflect T)
  exact ⟨s, hrun, SparseSet.nodup_of_inv hs⟩

end Claims

/-! ## More facts about the registry -/

namespace Registry

variable {C D G α : Type}

theorem lookup_filter_ne (l : List (Nat × Storage C D α)) (id k : Nat) (h : k ≠ id) :
    (l.filter (fun kv => kv.1 != id)).lookup k = l.lookup k := by
  induction l with
  | nil => rfl
  | cons x l ih =>
    obtain ⟨a, b⟩ := x
    by_cases ha : a = id
    · subst ha
      have hka : (k == a) = false := by simpa using h
      simp [List.filter_cons, List.lookup_cons, hka, ih]
    · by_cases hk : k = a
      · subst hk
        simp [List.filter_cons, List.lookup_cons, ha]
      · have hka : (k == a) = false := by simpa using hk
        simp [List.filter_cons, List.lookup_cons, ha, hka, ih]

theorem lookup_assign_self (r : Registry C D α) (id : Nat) (value : Storage C D α) :
    (r.assign id value).store.lookup id = some value := by
  simp [assign]

theorem lookup_assign_ne (r : Registry C D α) (id k : Nat) (value : Storage C D α)
    (h : k ≠ id) : (r.assign id value).store.lookup k = r.store.lookup k := by
  have hk : (k == id) = false := by simpa using h
  simp [assign, List.lookup_cons, hk, lookup_filter_ne _ _ _ h]

theorem mem_assign {r : Registry C D α} {id : Nat} {value : Storage C D α}
    {kv : Nat × Storage C D α} (h : kv ∈ (r.assign id value).store) :
    kv = (id, value) ∨ (kv ∈ r.store ∧ kv.1 ≠ id) := by
  simp only [assign, List.mem_cons, List.mem_filter] at h
  rcases h with h | ⟨h1, h2⟩
  · exact Or.inl h
  · exact Or.inr ⟨h1, by simpa using h2⟩

theorem nodup_assign (r : Registry C D α) (id : Nat) (value : Storage C D α)
    (h : (r.store.map Prod.fst).Nodup) : ((r.assign id value).store.map Prod.fst).Nodup := by
  simp only [assign, List.map_cons, List.nodup_cons]
  constructor
  · intro hmem
    rcases List.mem_map.mp hmem with ⟨kv, hkv, hk⟩
    have := (List.mem_filter.mp hkv).2
    simp [hk] at this
  · exact (List.filter_sublist _).map Prod.fst |>.nodup h

theorem found_false_of_lt (r : Registry C D α) (n : Nat)
    (h : ∀ kv ∈ r.store, kv.1 < n) : r.found n = false := by
  have hnone : r.store.lookup n = none := by
    rw [List.lookup_eq_none_iff]
    intro kv hkv
    have := h kv hkv
    simp only [bne_iff_ne, ne_eq]
    omega
  simp [found, hnone]

theorem mem_of_lookup {l : List (Nat × Storage C D α)} {k : Nat} {st : Storage C D α}
    (h : l.lookup k = some st) : (k, st) ∈ l := by
  induction l with
  | nil => cases h
  | cons x l ih =>
    obtain ⟨a, b⟩ := x
    by_cases hk : k = a
    · subst hk
      simp [List.lookup_cons] at h
      simp [h]
    · have hka : (k == a) = false := by simpa using hk
      simp only [List.lookup_cons, hka] at h
      exact List.mem_cons_of_mem _ (ih h)

theorem lookup_of_mem {l : List (Nat × Storage C D α)} {k : Nat} {st : Storage C D α}
    (hnd : (l.map Prod.fst).Nodup) (h : (k, st) ∈ l) : l.lookup k = some st := by
  induction l with
  | nil => cases h
  | cons x l ih =>
    obtain ⟨a, b⟩ := x
    simp only [List.map_cons, List.nodup_cons] at hnd
    rcases List.mem_cons.mp h with h | h
    · cases h
      simp
    · have hne : k ≠ a := by
        intro hka
        exact hnd.1 (List.mem_map.mpr ⟨(k, st), h, hka⟩)
      have hka : (k == a) = false := by simpa using hne
      simp only [List.lookup_cons, hka]
      exact ih hnd.2 h

theorem keys_lt_next {generate : G → Nat × G} {p : Process C G} {r : Registry C D α}
    (hc : Consistent generate p r) : ∀ kv ∈ r.store, kv.1 < p.next generate :=
  fun kv hkv => hc.1 _ _ (hc.2.2.1 kv hkv)

theorem counting_increases :
    ∀ g, (countingGenerator g).1 < (countingGenerator (countingGenerator g).2).1 := by
  intro g
  simp [countingGenerator]

theorem consistent_start (generate : G → Nat × G) (uuids : G) :
    Consistent generate (Process.start uuids : Process C G) (new : Registry C D α) := by
  refine ⟨?_, ?_, ?_, ?_⟩
  · intro V i h
    simp [Process.start] at h
  · intro V W i h
    simp [Process.start] at h
  · intro kv h
    simp [new] at h
  · simp [new]

variable [DecidableEq C]

theorem staticId_of_none (generate : G → Nat × G) (T : C) (p : Process C G)
    (h : p.id T = none) :
    staticId generate T p = (p.next generate,
      { uuids := (generate p.uuids).2
        id := Function.update p.id T (some (p.next generate)) }) := by
  simp [staticId, h, Process.next]

theorem staticId_persist (generate : G → Nat × G) (T : C) (p : Process C G) (V : C) (i : Nat)
    (h : p.id V = some i) : (staticId generate T p).2.id V = some i := by
  cases hT : p.id T with
  | some t => rw [staticId_of_some generate T p t hT]; exact h
  | none =>
    rw [staticId_of_none generate T p hT]
    have hne : V ≠ T := by
      intro hVT
      rw [hVT, hT] at h
      cases h
    simp [Function.update_noteq hne, h]

theorem staticId_id_cases (generate : G → Nat × G) (T : C) (p : Process C G) (V : C) (i : Nat)
    (h : (staticId generate T p).2.id V = some i) :
    p.id V = some i ∨ (p.id T = none ∧ V = T ∧ i = p.next generate) := by
  cases hT : p.id T with
  | some t =>
    rw [staticId_of_some generate T p t hT] at h
    exact Or.inl h
  | none =>
    rw [staticId_of_none generate T p hT] at h
    by_cases hVT : V = T
    · subst hVT
      simp at h
      exact Or.inr ⟨rfl, rfl, h.symm⟩
    · simp [Function.update_noteq hVT] at h
      exact Or.inl h

theorem next_le_staticId (generate : G → Nat × G) (T : C) (p : Process C G)
    (hmono : ∀ g, (generate g).1 < (generate (generate g).2).1) :
    p.next generate ≤ (staticId generate T p).2.next generate := by
  cases hT : p.id T with
  | some t => rw [staticId_of_some generate T p t hT]
  | none =>
    rw [staticId_of_none generate T p hT]
    exact Nat.le_of_lt (hmono p.uuids)

theorem registerComponent_id (generate : G → Nat × G) (reflect : C → D) (T : C)
    (p : Process C G) (r : Registry C D α) :
    (registerComponent generate reflect T p r).id = (staticId generate T p).1 := by
  simp only [registerComponent]
  split <;> rfl

theorem registerComponent_process (generate : G → Nat × G) (reflect : C → D) (T : C)
    (p : Process C G) (r : Registry C D α) :
    (registerComponent generate reflect T p r).process = (staticId generate T p).2 := by
  simp only [registerComponent]
  split <;> rfl

theorem registerComponent_registry (generate : G → Nat × G) (reflect : C → D) (T : C)
    (p : Process C G) (r : Registry C D α) :
    (registerComponent generate reflect T p r).registry
      = if r.found (staticId generate T p).1 then r
        else r.assign (staticId generate T p).1 (Storage.new reflect T) := by
  simp only [registerComponent]
  split <;> simp_all

theorem next_staticId_of_none (generate : G → Nat × G) (T : C) (p : Process C G)
    (h : p.id T = none) :
    (staticId generate T p).2.next generate = (generate (generate p.uuids).2).1 := by
  rw [staticId_of_none generate T p h]
  rfl

theorem staticId_bound (generate : G → Nat × G) (T : C) (p : Process C G)
    (hmono : ∀ g, (generate g).1 < (generate (generate g).2).1)
    (hp : ∀ V i, p.id V = some i → i < p.next generate) (V : C) (j : Nat)
    (h : (staticId generate T p).2.id V = some j) :
    j < (staticId generate T p).2.next generate := by
  rcases staticId_id_cases generate T p V j h with h1 | ⟨hT, _, hj⟩
  · exact Nat.lt_of_lt_of_le (hp V j h1) (next_le_staticId generate T p hmono)
  · rw [next_staticId_of_none generate T p hT, hj]
    exact hmono p.uuids

theorem staticId_injective (generate : G → Nat × G) (T : C) (p : Process C G)
    (hp : ∀ V i, p.id V = some i → i < p.next generate)
    (hinj : ∀ V W i, p.id V = some i → p.id W = some i → V = W) (V W : C) (j : Nat)
    (hV : (staticId generate T p).2.id V = some j)
    (hW : (staticId generate T p).2.id W = some j) : V = W := by
  rcases staticId_id_cases generate T p V j hV with h1 | ⟨_, hVT, hj⟩
  · rcases staticId_id_cases generate T p W j hW with h2 | ⟨_, _, hj2⟩
    · exact hinj V W j h1 h2
    · have := hp V j h1
      omega
  · rcases staticId_id_cases generate T p W j hW with h2 | ⟨_, hWT, _⟩
    · have := hp W j h2
      omega
    · rw [hVT, hWT]

theorem consistent_registerComponent (generate : G → Nat × G) (reflect : C → D) (T : C)
    (p : Process C G) (r : Registry C D α)
    (hmono : ∀ g, (generate g).1 < (generate (generate g).2).1)
    (hc : Consistent generate p r) :
    Consistent generate (registerComponent generate reflect T p r).process
      (registerComponent generate reflect T p r).registry := by
  obtain ⟨hp, hinj, hst, hnd⟩ := hc
  rw [registerComponent_process, registerComponent_registry]
  refine ⟨staticId_bound generate T p hmono hp, staticId_injective generate T p hp hinj, ?_, ?_⟩
  · intro kv hkv
    split at hkv
    · exact staticId_persist generate T p _ _ (hst kv hkv)
    · rcases mem_assign hkv with h | ⟨h, _⟩
      · subst h
        exact staticId_memo generate T p
      · exact staticId_persist generate T p _ _ (hst kv h)
  · split
    · exact hnd
    · exact nodup_assign r _ _ hnd

/-- Registering a component type whose identifier is not initialised yet: the generator
is called and a fresh store is put into the map under the identifier it returns. -/
theorem registerComponent_fresh (generate : G → Nat × G) (reflect : C → D) (U : C)
    (p : Process C G) (r : Registry C D α) (hc : Consistent generate p r)
    (hU : p.id U = none) :
    (registerComponent generate reflect U p r).id = p.next generate ∧
    (registerComponent generate reflect U p r).registry
      = r.assign (p.next generate) (Storage.new reflect U) := by
  have hnf : r.found (p.next generate) = false := found_false_of_lt r _ (keys_lt_next hc)
  rw [registerComponent_id, registerComponent_registry, staticId_of_none generate U p hU]
  simp [hnf]

theorem staticId_id_none (generate : G → Nat × G) (T U : C) (p : Process C G)
    (hTU : T ≠ U) (hU : p.id U = none) : (staticId generate T p).2.id U = none := by
  cases h : (staticId generate T p).2.id U with
  | none => rfl
  | some j =>
    rcases staticId_id_cases generate T p U j h with h1 | ⟨_, hUT, _⟩
    · rw [hU] at h1
      cases h1
    · exact absurd hUT.symm hTU

theorem registerComponent_id_of_some (generate : G → Nat × G) (reflect : C → D) (T : C)
    (p : Process C G) (r : Registry C D α) (t : Nat) (h : p.id T = some t) :
    (registerComponent generate reflect T p r).id = t := by
  rw [registerComponent_id, staticId_of_some generate T p t h]

theorem lookup_registerComponent_ne (generate : G → Nat × G) (reflect : C → D) (T : C)
    (p : Process C G) (r : Registry C D α) (k : Nat)
    (hk : k ≠ (registerComponent generate reflect T p r).id) :
    (registerComponent generate reflect T p r).registry.store.lookup k = r.store.lookup k := by
  rw [registerComponent_id] at hk
  rw [registerComponent_registry]
  split
  · rfl
  · exact lookup_assign_ne _ _ _ _ hk

/-- Two registrations in a row of distinct component types, in terms of the two results
`a` and `b`. -/
theorem registerComponent_pair (generate : G → Nat × G) (reflect : C → D) (T U : C)
    (p : Process C G) (r : Registry C D α)
    (hmono : ∀ g, (generate g).1 < (generate (generate g).2).1)
    (hc : Consistent generate p r) (hTU : T ≠ U)
    (a b : Registered C D G α) (ha : a = registerComponent generate reflect T p r)
    (hb : b = registerComponent generate reflect U a.process a.registry) :
    a.id ≠ b.id ∧
    (a.id < b.id ↔
      p.id U = none ∨ ∃ t u, p.id T = some t ∧ p.id U = some u ∧ t < u) ∧
    (∃ st, a.registry.store.lookup a.id = some st ∧ b.registry.store.lookup a.id = some st ∧
      st.T = T ∧ ∀ kv ∈ b.registry.store, kv.2.T = T → kv = (a.id, st)) ∧
    (∃ st, b.registry.store.lookup b.id = some st ∧
      st.T = U ∧ ∀ kv ∈ b.registry.store, kv.2.T = U → kv = (b.id, st)) ∧
    (b.registry.store.map Prod.fst).Nodup := by
  have hca : Consistent generate a.process a.registry := by
    rw [ha]
    exact consistent_registerComponent generate reflect T p r hmono hc
  have hcb : Consistent generate b.process b.registry := by
    rw [hb]
    exact consistent_registerComponent generate reflect U _ _ hmono hca
  have haT : a.process.id T = some a.id ∧ a.registry.found a.id = true := by
    rw [ha]
    exact registerComponent_spec generate reflect T p r
  have hbU : b.process.id U = some b.id ∧ b.registry.found b.id = true := by
    rw [hb]
    exact registerComponent_spec generate reflect U _ _
  have hbT : b.process.id T = some a.id := by
    rw [hb, registerComponent_process]
    exact staticId_persist generate U _ T _ haT.1
  have hne : a.id ≠ b.id := by
    intro heq
    apply hTU
    apply hcb.2.1 T U a.id hbT
    rw [heq]
    exact hbU.1
  have hlook : b.registry.store.lookup a.id = a.registry.store.lookup a.id := by
    rw [hb]
    apply lookup_registerComponent_ne
    rw [← hb]
    exact hne
  have huniq : ∀ (V : C) (i : Nat) (st : Storage C D α), b.process.id V = some i →
      b.registry.store.lookup i = some st →
      ∀ kv ∈ b.registry.store, kv.2.T = V → kv = (i, st) := by
    intro V i st hV hl kv hkv hkvT
    have h1 := hcb.2.2.1 kv hkv
    rw [hkvT, hV] at h1
    have hk : kv.1 = i := (Option.some.inj h1).symm
    have hmem : (i, kv.2) ∈ b.registry.store := by
      rw [← hk]
      exact hkv
    have h2 := lookup_of_mem hcb.2.2.2 hmem
    rw [hl] at h2
    exact Prod.ext hk (Option.some.inj h2).symm
  have hstT : ∀ (V : C) (i : Nat) (st : Storage C D α), b.process.id V = some i →
      b.registry.store.lookup i = some st → st.T = V := by
    intro V i st hV hl
    exact hcb.2.1 _ _ _ (hcb.2.2.1 _ (mem_of_lookup hl)) hV
  refine ⟨hne, ?_, ?_, ?_, hcb.2.2.2⟩
  · cases hU : p.id U with
    | none =>
      have hUa : a.process.id U = none := by
        rw [ha, registerComponent_process]
        exact staticId_id_none generate T U p hTU hU
      have hbid : b.id = a.process.next generate := by
        rw [hb]
        exact (registerComponent_fresh generate reflect U _ _ hca hUa).1
      have hlt : a.id < b.id := by
        rw [hbid]
        exact hca.1 T a.id haT.1
      simp [hlt]
    | some u =>
      have hUa : a.process.id U = some u := by
        rw [ha, registerComponent_process]
        exact staticId_persist generate T p U u hU
      have hbid : b.id = u := by
        rw [hb]
        exact registerComponent_id_of_some generate reflect U _ _ u hUa
      cases hT : p.id T with
      | some t =>
        have haid : a.id = t := by
          rw [ha]
          exact registerComponent_id_of_some generate reflect T p r t hT
        simp [haid, hbid]
      | none =>
        have haid : a.id = p.next generate := by
          rw [ha, registerComponent_id, staticId_of_none generate T p hT]
        have hlt : u < p.next generate := hc.1 U u hU
        simp only [haid, hbid, reduceCtorEq, false_and, exists_false, or_false,
          exists_const, iff_false, not_lt]
        exact Nat.le_of_lt hlt
  · cases hl : a.registry.store.lookup a.id with
    | none =>
      have := haT.2
      simp [found, hl] at this
    | some st =>
      have hlb : b.registry.store.lookup a.id = some st := by rw [hlook, hl]
      exact ⟨st, rfl, hlb, hstT T a.id st hbT hlb, huniq T a.id st hbT hlb⟩
  · cases hl : b.registry.store.lookup b.id with
    | none =>
      have := hbU.2
      simp [found, hl] at this
    | some st =>
      exact ⟨st, rfl, hstT U b.id st hbU.1 hl, huniq U b.id st hbU.1 hl⟩

/-- A registration in one registry leaves every other registry of the process
consistent. -/
theorem consistent_other_registry (generate : G → Nat × G) (reflect : C → D) (T : C)
    (p : Process C G) (r r2 : Registry C D α)
    (hmono : ∀ g, (generate g).1 < (generate (generate g).2).1)
    (hc : Consistent generate p r2) :
    Consistent generate (registerComponent generate reflect T p r).process r2 := by
  obtain ⟨hp, hinj, hst, hnd⟩ := hc
  rw [registerComponent_process]
  exact ⟨staticId_bound generate T p hmono hp, staticId_injective generate T p hp hinj,
    fun kv hkv => staticId_persist generate T p _ _ (hst kv hkv), hnd⟩

end Registry

/-! ## The claims on the registry -/

section RegistryClaims

variable {C D G α : Type}

/-- C11 as stated fails: the identifier of a component type is a function-local static,
shared by all registries of the process. With a generator returning 0, 1, 2, ... and the
type 1 registered first in some registry, registering the types 0 and 1 in that order in
a second, fresh registry returns 1 and then 0: the first identifier is not below the
second. -/
theorem Registry.registerComponent_order_fails :
    (∀ g, (countingGenerator g).1 < (countingGenerator (countingGenerator g).2).1) ∧
    (Registry.registerAll countingGenerator id
      (Registry.registerComponent countingGenerator id (1 : Nat) (Process.start 0)
        (Registry.new : Registry Nat Nat Nat)).process
      (Registry.new : Registry Nat Nat Nat) [0, 1]).1 = [1, 0] ∧
    ¬ ∃ idT idU,
      (Registry.registerAll countingGenerator id
        (Registry.registerComponent countingGenerator id (1 : Nat) (Process.start 0)
          (Registry.new : Registry Nat Nat Nat)).process
        (Registry.new : Registry Nat Nat Nat) [0, 1]).1 = [idT, idU] ∧ idT < idU := by
  have h : (Registry.registerAll countingGenerator id
      (Registry.registerComponent countingGenerator id (1 : Nat) (Process.start 0)
        (Registry.new : Registry Nat Nat Nat)).process
      (Registry.new : Registry Nat Nat Nat) [0, 1]).1 = [1, 0] := by decide
  refine ⟨fun g => by simp [countingGenerator], h, ?_⟩
  rintro ⟨idT, idU, hids, hlt⟩
  rw [h] at hids
  simp only [List.cons.injEq, and_true] at hids
  omega

/-- C11, amended: with a generator whose successive values increase, in a process and
registry left consistent by earlier registrations, for two distinct component types `T`
and `U`, registering `T` and then `U` in the registry returns two different identifiers
`idT` and `idU`; afterwards the map holds exactly one store of type `T`, under `idT`, and
exactly one of type `U`, under `idU`, no key occurs twice, and the store of `T` is the one
that was there before `U` was registered. The order `idT < idU` holds exactly when the
identifier of `T` was initialised in the process before that of `U`: when `U` has not
been registered in the process before, or when both have been and `T` got the smaller
identifier. -/
theorem Registry.registerComponent_ordered [DecidableEq C] (generate : G → Nat × G)
    (reflect : C → D) (T U : C) (p : Process C G) (r : Registry C D α)
    (hmono : ∀ g, (generate g).1 < (generate (generate g).2).1)
    (hc : Registry.Consistent generate p r) (hTU : T ≠ U) :
    ∃ idT idU stT stU,
      (Registry.registerAll generate reflect p
          r [T, U]).1 = [idT, idU] ∧
      idT ≠ idU ∧
      (idT < idU ↔
        p.id U = none ∨
        ∃ t u, p.id T = some t ∧ p.id U = some u ∧ t < u) ∧
      (Registry.registerAll generate reflect p
          r [T]).2.2.store.lookup idT = some stT ∧
      (Registry.registerAll generate reflect p
          r [T, U]).2.2.store.lookup idT = some stT ∧
      stT.T = T ∧
      (Registry.registerAll generate reflect p
          r [T, U]).2.2.store.lookup idU = some stU ∧
      stU.T = U ∧
      (∀ kv ∈ (Registry.registerAll generate reflect p
          r [T, U]).2.2.store,
        kv.2.T = T → kv = (idT, stT)) ∧
      (∀ kv ∈ (Registry.registerAll generate reflect p
          r [T, U]).2.2.store,
        kv.2.T = U → kv = (idU, stU)) ∧
      ((Registry.registerAll generate reflect p
          r [T, U]).2.2.store.map Prod.fst).Nodup := by
  obtain ⟨hne, hord, ⟨st, hla, hlb, hst, hun⟩, ⟨stU, hlu, hstU, hunU⟩, hnd⟩ :=
    Registry.registerComponent_pair generate reflect T U p r hmono hc hTU _ _ rfl rfl
  exact ⟨_, _, st, stU, rfl, hne, hord, hla, hlb, hst, hlu, hstU, hun, hunU, hnd⟩

/-- Witness of the amended C11: the types 0 and 1 registered in a fresh registry of a
fresh process, with the generator returning 0, 1, 2, ... -/
theorem Registry.registerComponent_ordered_witness :
    (∀ g, (countingGenerator g).1 < (countingGenerator (countingGenerator g).2).1) ∧
    Registry.Consistent countingGenerator (Process.start 0 : Process Nat Nat)
      (Registry.new : Registry Nat Nat Nat) ∧
    (0 : Nat) ≠ 1 ∧
    ∃ idT idU stT stU,
      (Registry.registerAll countingGenerator id (Process.start 0 : Process Nat Nat)
          (Registry.new : Registry Nat Nat Nat) [0, 1]).1 = [idT, idU] ∧
      idT ≠ idU ∧
      (idT < idU ↔
        (Process.start 0 : Process Nat Nat).id 1 = none ∨
        ∃ t u, (Process.start 0 : Process Nat Nat).id 0 = some t ∧ (Process.start 0 : Process Nat Nat).id 1 = some u ∧ t < u) ∧
      (Registry.registerAll countingGenerator id (Process.start 0 : Process Nat Nat)
          (Registry.new : Registry Nat Nat Nat) [0]).2.2.store.lookup idT = some stT ∧
      (Registry.registerAll countingGenerator id (Process.start 0 : Process Nat Nat)
          (Registry.new : Registry Nat Nat Nat) [0, 1]).2.2.store.lookup idT = some stT ∧
      stT.T = 0 ∧
      (Registry.registerAll countingGenerator id (Process.start 0 : Process Nat Nat)
          (Registry.new : Registry Nat Nat Nat) [0, 1]).2.2.store.lookup idU = some stU ∧
      stU.T = 1 ∧
      (∀ kv ∈ (Registry.registerAll countingGenerator id (Process.start 0 : Process Nat Nat)
          (Registry.new : Registry Nat Nat Nat) [0, 1]).2.2.store,
        kv.2.T = 0 → kv = (idT, stT)) ∧
      (∀ kv ∈ (Registry.registerAll countingGenerator id (Process.start 0 : Process Nat Nat)
          (Registry.new : Registry Nat Nat Nat) [0, 1]).2.2.store,
        kv.2.T = 1 → kv = (idU, stU)) ∧
      ((Registry.registerAll countingGenerator id (Process.start 0 : Process Nat Nat)
          (Registry.new : Registry Nat Nat Nat) [0, 1]).2.2.store.map Prod.fst).Nodup :=
  ⟨Registry.counting_increases, Registry.consistent_start countingGenerator 0, by decide,
    Registry.registerComponent_ordered countingGenerator id 0 1 (Process.start 0) Registry.new
      Registry.counting_increases (Registry.consistent_start countingGenerator 0)
      (by decide)⟩

end RegistryClaims

/-! ## More facts about the sparse set and the store -/

namespace SparseSet

variable {α : Type}

theorem entry_eq_some_iff (l : List (Option Nat)) (i pos : Nat) :
    entry l i = some pos ↔ l[i]? = some (some pos) := by
  unfold entry
  cases h : l[i]? with
  | none => simp
  | some o =>
    cases o with
    | none => simp
    | some q => simp

theorem slot_emplace_other {s s1 : SparseSet α} {i j : Nat} {v : α}
    (h : s.emplace i v = some s1) (hij : j ≠ i) : s1.slot j = s.slot j := by
  rw [slot_emplace h, if_neg (Ne.symm hij)]

theorem access_emplace_other {s s1 : SparseSet α} {i j : Nat} {v : α} (hs : s.Inv)
    (h : s.emplace i v = some s1) (hij : j ≠ i) :
    s1.contains j = s.contains j ∧ s1.access j = s.access j := by
  have hsl := slot_emplace_other h hij
  refine ⟨by simp only [contains, hsl], ?_⟩
  unfold access
  rw [hsl]
  cases hp : s.slot j with
  | none => rfl
  | some pos =>
    simp only []
    rw [dense_emplace h, List.getElem?_append_left (slot_lt_dense hs hp)]

theorem size_emplace {s s1 : SparseSet α} {i : Nat} {v : α} (h : s.emplace i v = some s1) :
    s1.size = s.size + 1 := by
  simp [size, dense_emplace h]

theorem apply_inv {s s1 : SparseSet α} (hs : s.Inv) (c : Call α) (h : s.apply c = some s1) :
    s1.Inv := by
  cases c with
  | emplace i v => exact inv_emplace hs h
  | erase i => exact inv_erase hs h

theorem run_inv (cs : List (Call α)) :
    ∀ s s1 : SparseSet α, s.Inv → s.run cs = some s1 → s1.Inv := by
  induction cs with
  | nil =>
    intro s s1 hs h
    cases h
    exact hs
  | cons c cs ih =>
    intro s s1 hs h
    simp only [run] at h
    cases hc : s.apply c with
    | none => rw [hc] at h; cases h
    | some s2 =>
      rw [hc] at h
      exact ih s2 s1 (apply_inv hs c hc) h

theorem erase_isSome {s : SparseSet α} (hs : s.Inv) {i : Nat} (h : s.contains i = true) :
    (s.erase i).isSome = true := by
  obtain ⟨pos, hpos⟩ := (contains_iff s i).mp h
  obtain ⟨last, _, he⟩ := erase_eq hs hpos
  simp [he]

end SparseSet

/-! ## Further claims on the store and the sparse set -/

section StoreClaims

variable {C D α : Type}

/-- C13: for every store whose sparse set passes the invariant check `wf`, every entity `e`
and value `v`, `insert(e, v)` and `remove(e)` return, `insert` logs its one diagnostic
exactly when `e` already holds a component and nothing when it is accepted, and `remove`
logs its one diagnostic exactly when `e` holds no component and nothing when it removes. -/
theorem Storage.diagnostics_exact (reflect : C → D) (s : Storage C D α) (e : Entity) (v : α)
    (hwf : s.entities.wf = true) :
    ∃ s1 log1 s2 log2,
      s.insert reflect e v = .ok s1 log1 ∧
      s.remove reflect e = .ok s2 log2 ∧
      log1 = (if s.entities.contains e.getIndex then [.hasComponent (s.getType reflect)]
        else []) ∧
      log2 = (if s.entities.contains e.getIndex then []
        else [.lacksComponent (s.getType reflect)]) := by
  have hs : s.entities.Inv := (SparseSet.wf_iff _).mp hwf
  cases h : s.entities.contains e.getIndex with
  | true =>
    obtain ⟨es, _, hrem⟩ := Storage.remove_of_present reflect s e hs h
    exact ⟨_, _, _, _, Storage.insert_of_present reflect s e v h, hrem, by simp, by simp⟩
  | false =>
    obtain ⟨es, _, hins⟩ := Storage.insert_of_absent reflect s e v h
    exact ⟨_, _, _, _, hins, Storage.remove_of_absent reflect s e h, by simp, by simp⟩

/-- Witness of C13: entity 3, which holds a component, in a store holding entities 3
and 1. -/
theorem Storage.diagnostics_exact_witness :
    (⟨[none, some 1, none, some 0], [(3, 5), (1, 7)]⟩ : SparseSet Nat).wf = true ∧
    ∃ s1 log1 s2 log2,
      (⟨0, ⟨[none, some 1, none, some 0], [(3, 5), (1, 7)]⟩, 0⟩ : Storage Nat Nat Nat).insert
        id ⟨3⟩ 9 = .ok s1 log1 ∧
      (⟨0, ⟨[none, some 1, none, some 0], [(3, 5), (1, 7)]⟩, 0⟩ : Storage Nat Nat Nat).remove
        id ⟨3⟩ = .ok s2 log2 ∧
      log1 = (if (⟨[none, some 1, none, some 0], [(3, 5), (1, 7)]⟩ : SparseSet Nat).contains
          (Entity.getIndex ⟨3⟩)
        then [.hasComponent ((⟨0, ⟨[none, some 1, none, some 0], [(3, 5), (1, 7)]⟩, 0⟩ :
          Storage Nat Nat Nat).getType id)]
        else []) ∧
      log2 = (if (⟨[none, some 1, none, some 0], [(3, 5), (1, 7)]⟩ : SparseSet Nat).contains
          (Entity.getIndex ⟨3⟩)
        then []
        else [.lacksComponent ((⟨0, ⟨[none, some 1, none, some 0], [(3, 5), (1, 7)]⟩, 0⟩ :
          Storage Nat Nat Nat).getType id)]) :=
  ⟨by decide, Storage.diagnostics_exact id
    ⟨0, ⟨[none, some 1, none, some 0], [(3, 5), (1, 7)]⟩, 0⟩ ⟨3⟩ 9 (by decide)⟩

/-- C14: in every state reached from the empty sparse set by a sequence of `emplace` and
`erase` calls made within their preconditions, every valid entry `sparse[i]` is a position
inside `dense`, and the pair of `dense` at that position carries the index `i`. In such a
state an `emplace` on an index not contained and an `erase` on a contained index both
yield a state again. -/
theorem SparseSet.run_invariant (cs : List (SparseSet.Call α)) (s : SparseSet α)
    (h : (SparseSet.empty : SparseSet α).run cs = some s) :
    (∀ i pos, s.sparse[i]? = some (some pos) →
      pos < s.dense.length ∧ ∃ v, s.dense[pos]? = some (i, v)) ∧
    (∀ i v, s.contains i = false → (s.emplace i v).isSome = true) ∧
    (∀ i, s.contains i = true → (s.erase i).isSome = true) := by
  have hs : s.Inv := SparseSet.run_inv cs _ _ SparseSet.inv_empty h
  refine ⟨fun i pos hi => ?_, fun i v hc => ?_, fun i hc => SparseSet.erase_isSome hs hc⟩
  · have hsl : s.slot i = some pos := (SparseSet.entry_eq_some_iff _ _ _).mpr hi
    obtain ⟨v, hv, _⟩ := SparseSet.access_of_slot hs hsl
    exact ⟨SparseSet.slot_lt_dense hs hsl, v, hv⟩
  · simp [SparseSet.emplace_eq hc v]

/-- Witness of C14: indices 3 and 1 emplaced, then 3 erased. -/
theorem SparseSet.run_invariant_witness :
    (SparseSet.empty : SparseSet Nat).run [.emplace 3 5, .emplace 1 7, .erase 3]
      = some ⟨[none, some 0, none, none], [(1, 7)]⟩ ∧
    ((∀ i pos, (⟨[none, some 0, none, none], [(1, 7)]⟩ : SparseSet Nat).sparse[i]?
        = some (some pos) →
      pos < (⟨[none, some 0, none, none], [(1, 7)]⟩ : SparseSet Nat).dense.length ∧
      ∃ v, (⟨[none, some 0, none, none], [(1, 7)]⟩ : SparseSet Nat).dense[pos]?
        = some (i, v)) ∧
    (∀ i v, (⟨[none, some 0, none, none], [(1, 7)]⟩ : SparseSet Nat).contains i = false →
      ((⟨[none, some 0, none, none], [(1, 7)]⟩ : SparseSet Nat).emplace i v).isSome = true) ∧
    (∀ i, (⟨[none, some 0, none, none], [(1, 7)]⟩ : SparseSet Nat).contains i = true →
      ((⟨[none, some 0, none, none], [(1, 7)]⟩ : SparseSet Nat).erase i).isSome = true)) :=
  ⟨by decide, SparseSet.run_invariant [.emplace 3 5, .emplace 1 7, .erase 3]
    ⟨[none, some 0, none, none], [(1, 7)]⟩ (by decide)⟩

/-- C15: for every store whose sparse set passes the invariant check `wf`, every entity and
every value, the three untyped operations return: none of them ends in the caller-error
abort, which is what a sparse-set call outside its precondition produces. `insert`
reaches `emplace` only behind a failed `contains` test, `get` and `remove` reach
`operator[]` and `erase` only behind a successful one. -/
theorem Storage.no_caller_error (reflect : C → D) (s : Storage C D α) (e : Entity) (v : α)
    (hwf : s.entities.wf = true) :
    (∃ s1 log, s.insert reflect e v = .ok s1 log) ∧
    (∃ r log, s.get reflect e = .ok r log) ∧
    (∃ s1 log, s.remove reflect e = .ok s1 log) ∧
    (s.entities.contains e.getIndex = false →
      (s.entities.emplace e.getIndex v).isSome = true) ∧
    (s.entities.contains e.getIndex = true →
      (s.entities.access e.getIndex).isSome = true ∧
      (s.entities.erase e.getIndex).isSome = true) := by
  have hs : s.entities.Inv := (SparseSet.wf_iff _).mp hwf
  refine ⟨?_, ?_, ?_, ?_, ?_⟩
  · obtain ⟨s1, log, h, _⟩ := Storage.step_ok reflect s hs (.insert e v)
    exact ⟨s1, log, h⟩
  · cases h : s.entities.contains e.getIndex with
    | true =>
      obtain ⟨pos, hpos⟩ := (SparseSet.contains_iff _ _).mp h
      obtain ⟨w, _, hw⟩ := SparseSet.access_of_slot hs hpos
      exact ⟨_, _, Storage.get_of_access reflect s e w h hw⟩
    | false => exact ⟨_, _, Storage.get_of_absent reflect s e h⟩
  · obtain ⟨s1, log, h, _⟩ := Storage.step_ok reflect s hs (.remove e)
    exact ⟨s1, log, h⟩
  · intro h
    simp [SparseSet.emplace_eq h v]
  · intro h
    obtain ⟨pos, hpos⟩ := (SparseSet.contains_iff _ _).mp h
    obtain ⟨w, _, hw⟩ := SparseSet.access_of_slot hs hpos
    exact ⟨by simp [hw], SparseSet.erase_isSome hs h⟩

/-- Witness of C15: entity 1 in a store holding entities 3 and 1. -/
theorem Storage.no_caller_error_witness :
    (⟨[none, some 1, none, some 0], [(3, 5), (1, 7)]⟩ : SparseSet Nat).wf = true ∧
    ((∃ s1 log,
        (⟨0, ⟨[none, some 1, none, some 0], [(3, 5), (1, 7)]⟩, 0⟩ : Storage Nat Nat Nat).insert
          id ⟨1⟩ 9 = .ok s1 log) ∧
      (∃ r log,
        (⟨0, ⟨[none, some 1, none, some 0], [(3, 5), (1, 7)]⟩, 0⟩ : Storage Nat Nat Nat).get
          id ⟨1⟩ = .ok r log) ∧
      (∃ s1 log,
        (⟨0, ⟨[none, some 1, none, some 0], [(3, 5), (1, 7)]⟩, 0⟩ : Storage Nat Nat Nat).remove
          id ⟨1⟩ = .ok s1 log) ∧
      ((⟨[none, some 1, none, some 0], [(3, 5), (1, 7)]⟩ : SparseSet Nat).contains
          (Entity.getIndex ⟨1⟩) = false →
        ((⟨[none, some 1, none, some 0], [(3, 5), (1, 7)]⟩ : SparseSet Nat).emplace
          (Entity.getIndex ⟨1⟩) 9).isSome = true) ∧
      ((⟨[none, some 1, none, some 0], [(3, 5), (1, 7)]⟩ : SparseSet Nat).contains
          (Entity.getIndex ⟨1⟩) = true →
        ((⟨[none, some 1, none, some 0], [(3, 5), (1, 7)]⟩ : SparseSet Nat).access
          (Entity.getIndex ⟨1⟩)).isSome = true ∧
        ((⟨[none, some 1, none, some 0], [(3, 5), (1, 7)]⟩ : SparseSet Nat).erase
          (Entity.getIndex ⟨1⟩)).isSome = true)) :=
  ⟨by decide, Storage.no_caller_error id
    ⟨0, ⟨[none, some 1, none, some 0], [(3, 5), (1, 7)]⟩, 0⟩ ⟨1⟩ 9 (by decide)⟩

/-- C16: for every store whose sparse set passes the invariant check `wf`, every entity `e`
absent from it and every value `v`, `insert(e, v)` is accepted, the number of stored
components grows by exactly one, and `get(e')` returns what it returned before for every
other entity `e'`: the same component if there was one, the null pointer otherwise. -/
theorem Storage.insert_frame (reflect : C → D) (s : Storage C D α) (e : Entity) (v : α)
    (hwf : s.entities.wf = true) (h : s.entities.contains e.getIndex = false) :
    ∃ s1, s.insert reflect e v = .ok s1 [] ∧
      s1.entities.size = s.entities.size + 1 ∧
      ∀ e1 : Entity, e1 ≠ e → s1.get reflect e1 = s.get reflect e1 := by
  have hs : s.entities.Inv := (SparseSet.wf_iff _).mp hwf
  obtain ⟨es, hes, hins⟩ := Storage.insert_of_absent reflect s e v h
  refine ⟨_, hins, SparseSet.size_emplace hes, fun e1 hne => ?_⟩
  have hidx : e1.getIndex ≠ e.getIndex := by
    intro hi
    apply hne
    cases e1
    cases e
    simp only [Entity.getIndex] at hi
    rw [hi]
  obtain ⟨hc, ha⟩ := SparseSet.access_emplace_other hs hes hidx
  simp only [Storage.get, Storage.getType, hc, ha]

/-- Witness of C16: entity 2 is inserted into a store holding entities 3 and 1. -/
theorem Storage.insert_frame_witness :
    (⟨[none, some 1, none, some 0], [(3, 5), (1, 7)]⟩ : SparseSet Nat).wf = true ∧
    (⟨[none, some 1, none, some 0], [(3, 5), (1, 7)]⟩ : SparseSet Nat).contains
      (Entity.getIndex ⟨2⟩) = false ∧
    ∃ s1,
      (⟨0, ⟨[none, some 1, none, some 0], [(3, 5), (1, 7)]⟩, 0⟩ : Storage Nat Nat Nat).insert
        id ⟨2⟩ 9 = .ok s1 [] ∧
      s1.entities.size
        = (⟨[none, some 1, none, some 0], [(3, 5), (1, 7)]⟩ : SparseSet Nat).size + 1 ∧
      ∀ e1 : Entity, e1 ≠ ⟨2⟩ →
        s1.get id e1
          = (⟨0, ⟨[none, some 1, none, some 0], [(3, 5), (1, 7)]⟩, 0⟩ :
              Storage Nat Nat Nat).get id e1 :=
  ⟨by decide, by decide, Storage.insert_frame id
    ⟨0, ⟨[none, some 1, none, some 0], [(3, 5), (1, 7)]⟩, 0⟩ ⟨2⟩ 9 (by decide) (by decide)⟩

/-- C17: for every store whose sparse set passes the invariant check `wf`, every entity `e`
holding a component and every value `v2`, `remove(e)` removes the component, the
following `insert(e, v2)` is accepted without a diagnostic, and `get(e)` then returns
`v2`. -/
theorem Storage.remove_then_insert (reflect : C → D) (s : Storage C D α) (e : Entity) (v2 : α)
    (hwf : s.entities.wf = true) (h : s.entities.contains e.getIndex = true) :
    ∃ s1 s2, s.remove reflect e = .ok s1 [] ∧
      s1.insert reflect e v2 = .ok s2 [] ∧
      s2.get reflect e = .ok (some v2) [] := by
  have hs : s.entities.Inv := (SparseSet.wf_iff _).mp hwf
  obtain ⟨es, hes, hrem⟩ := Storage.remove_of_present reflect s e hs h
  have hnc : ({ s with entities := es } : Storage C D α).entities.contains e.getIndex = false :=
    SparseSet.contains_erase_self hs hes
  obtain ⟨es2, hes2, hins⟩ := Storage.insert_of_absent reflect _ e v2 hnc
  obtain ⟨hc, ha⟩ := SparseSet.access_emplace hes2
  exact ⟨_, _, hrem, hins, Storage.get_of_access reflect _ e v2 hc ha⟩

/-- Witness of C17: entity 3 is removed from a store holding entities 3 and 1, then
inserted again with value 9. -/
theorem Storage.remove_then_insert_witness :
    (⟨[none, some 1, none, some 0], [(3, 5), (1, 7)]⟩ : SparseSet Nat).wf = true ∧
    (⟨[none, some 1, none, some 0], [(3, 5), (1, 7)]⟩ : SparseSet Nat).contains
      (Entity.getIndex ⟨3⟩) = true ∧
    ∃ s1 s2,
      (⟨0, ⟨[none, some 1, none, some 0], [(3, 5), (1, 7)]⟩, 0⟩ : Storage Nat Nat Nat).remove
        id ⟨3⟩ = .ok s1 [] ∧
      s1.insert id ⟨3⟩ 9 = .ok s2 [] ∧
      s2.get id ⟨3⟩ = .ok (some 9) [] :=
  ⟨by decide, by decide, Storage.remove_then_insert id
    ⟨0, ⟨[none, some 1, none, some 0], [(3, 5), (1, 7)]⟩, 0⟩ ⟨3⟩ 9 (by decide) (by decide)⟩

end StoreClaims

/-! ## Platform signals -/

namespace Platform

theorem clearSignal_testBit (signalState m i : Nat) :
    (clearSignal signalState m).testBit i
      = (signalState.testBit i && (decide (i < 32) && !m.testBit i)) := by
  simp only [clearSignal, not32, toU32, Nat.testBit_and, Nat.testBit_xor,
    Nat.testBit_two_pow_sub_one, Nat.testBit_mod_two_pow]
  cases signalState.testBit i <;> cases m.testBit i <;> by_cases h : i < 32 <;> simp [h]

theorem testBit_of_lt_u32 {x i : Nat} (hx : x < 2 ^ 32) (hi : ¬ i < 32) :
    x.testBit i = false := by
  apply Nat.testBit_lt_two_pow
  exact Nat.lt_of_lt_of_le hx (Nat.pow_le_pow_right (by decide) (Nat.le_of_not_lt hi))

end Platform

section PlatformClaims

/-- C18 as stated fails: with `signalState` and the mask both `0x100`, the value
`signalState & mask` is `0x100`, not zero, but converted to the 8-bit `b8` it is 0:
`isSignal` returns false. -/
theorem Platform.isSignal_truncates :
    Platform.isSignal 256 256 = 0 ∧ 256 &&& Platform.toU32 256 ≠ 0 ∧
    (256 : Nat) < 2 ^ 32 := by
  decide

/-- C18, amended: for every 32-bit signal state and every mask `s` below `2^8`,
`isSignal(s)` returns a non-zero `b8` exactly when `signalState & s` is not zero; and for
every mask `m`, after `clearSignal(m)` the call `isSignal(m)` returns 0, the state
is still a 32-bit value, and every bit of it outside `m` is as it was. -/
theorem Platform.isSignal_clearSignal (signalState s m : Nat) (hstate : signalState < 2 ^ 32)
    (hs : s < 2 ^ 8) :
    (Platform.isSignal signalState s ≠ 0 ↔ signalState &&& s ≠ 0) ∧
    Platform.isSignal (Platform.clearSignal signalState m) m = 0 ∧
    Platform.clearSignal signalState m < 2 ^ 32 ∧
    (∀ i, m.testBit i = false →
      (Platform.clearSignal signalState m).testBit i = signalState.testBit i) := by
  refine ⟨?_, ?_, ?_, ?_⟩
  · have h1 : s % 2 ^ 32 = s := Nat.mod_eq_of_lt (Nat.lt_trans hs (by decide))
    have h2 : signalState &&& s < 2 ^ 8 := Nat.lt_of_le_of_lt Nat.and_le_right hs
    simp only [Platform.isSignal, Platform.toU32, h1, Nat.mod_eq_of_lt h2]
  · have h0 : Platform.clearSignal signalState m &&& Platform.toU32 m = 0 := by
      apply Nat.eq_of_testBit_eq
      intro i
      simp only [Nat.testBit_and, Platform.clearSignal_testBit, Platform.toU32,
        Nat.testBit_mod_two_pow, Nat.zero_testBit]
      cases signalState.testBit i <;> cases m.testBit i <;> by_cases h : i < 32 <;> simp [h]
    simp only [Platform.isSignal, h0, Nat.zero_mod]
  · apply Nat.lt_pow_two_of_testBit
    intro i hi
    rw [Platform.clearSignal_testBit]
    have : ¬ i < 32 := by omega
    simp [this]
  · intro i hi
    rw [Platform.clearSignal_testBit, hi]
    by_cases h : i < 32
    · simp [h]
    · simp [h, Platform.testBit_of_lt_u32 hstate h]

/-- Witness of the amended C18: state `0x45` with the masks `0x04` and `0x41`. -/
theorem Platform.isSignal_clearSignal_witness :
    (0x45 : Nat) < 2 ^ 32 ∧ (0x04 : Nat) < 2 ^ 8 ∧
    ((Platform.isSignal 0x45 0x04 ≠ 0 ↔ 0x45 &&& 0x04 ≠ 0) ∧
      Platform.isSignal (Platform.clearSignal 0x45 0x41) 0x41 = 0 ∧
      Platform.clearSignal 0x45 0x41 < 2 ^ 32 ∧
      (∀ i, Nat.testBit 0x41 i = false →
        (Platform.clearSignal 0x45 0x41).testBit i = Nat.testBit 0x45 i)) :=
  ⟨by decide, by decide,
    Platform.isSignal_clearSignal 0x45 0x04 0x41 (by decide) (by decide)⟩

end PlatformClaims

/-! ## Application configuration -/

namespace Application

variable {F : Type}

theorem lastArg_append {β : Type} (pick : Setter F → Option β) (cs : List (Setter F))
    (c : Setter F) :
    lastArg pick (cs ++ [c]) = (pick c).orElse (fun _ => lastArg pick cs) := by
  simp only [lastArg, List.reverse_append, List.reverse_cons, List.reverse_nil,
    List.nil_append, List.singleton_append, List.findSome?_cons]
  cases pick c <;> rfl

theorem Builder.calls_append (b : Builder F) (cs : List (Setter F)) (c : Setter F) :
    b.calls (cs ++ [c]) = (b.calls cs).call c := by
  simp [Builder.calls, List.foldl_append]

/-- A field that each call either sets to its argument or leaves alone holds, after a
sequence of calls, the argument of the last call that set it, or else its first value. -/
theorem Builder.field_calls {β : Type} (field : Config F → β) (pick : Setter F → Option β)
    (hcall : ∀ (b : Builder F) (c : Setter F),
      field (b.call c).config = (pick c).getD (field b.config))
    (b : Builder F) (cs : List (Setter F)) :
    field (b.calls cs).config = (lastArg pick cs).getD (field b.config) := by
  induction cs using List.reverseRecOn with
  | nil => rfl
  | append_singleton cs c ih =>
    rw [Builder.calls_append, hcall, lastArg_append, ih]
    cases pick c <;> rfl

end Application

section ApplicationClaims

variable {F : Type}

/-- C19: each setter changes only its own field, setting it to its argument (`true` for
the two `enable` calls), and for every sequence of setter calls on a new builder `build()`
returns a `Config` in which each field is the argument of the last call of its setter, or
its default when its setter was not called: title "Iodine", both rates 60, both flags
false, both windows the value of `1.0f`. -/
theorem Application.Builder.build_calls (one : F) (cs : List (Application.Setter F)) :
    (∀ (b : Application.Builder F) (c : Application.Setter F),
      (b.call c).build.title = c.titleArg.getD b.build.title ∧
      (b.call c).build.tickRate = c.tickRateArg.getD b.build.tickRate ∧
      (b.call c).build.renderRate = c.renderRateArg.getD b.build.renderRate ∧
      (b.call c).build.isMemoryLogging = c.memoryLoggingArg.getD b.build.isMemoryLogging ∧
      (b.call c).build.isPerformanceLogging
        = c.performanceLoggingArg.getD b.build.isPerformanceLogging ∧
      (b.call c).build.tickRateWindow = c.tickRateWindowArg.getD b.build.tickRateWindow ∧
      (b.call c).build.renderRateWindow
        = c.renderRateWindowArg.getD b.build.renderRateWindow) ∧
    ((Application.Builder.new one).calls cs).build.title
      = (Application.lastArg Application.Setter.titleArg cs).getD "Iodine" ∧
    ((Application.Builder.new one).calls cs).build.tickRate
      = (Application.lastArg Application.Setter.tickRateArg cs).getD 60 ∧
    ((Application.Builder.new one).calls cs).build.renderRate
      = (Application.lastArg Application.Setter.renderRateArg cs).getD 60 ∧
    ((Application.Builder.new one).calls cs).build.isMemoryLogging
      = (Application.lastArg Application.Setter.memoryLoggingArg cs).getD false ∧
    ((Application.Builder.new one).calls cs).build.isPerformanceLogging
      = (Application.lastArg Application.Setter.performanceLoggingArg cs).getD false ∧
    ((Application.Builder.new one).calls cs).build.tickRateWindow
      = (Application.lastArg Application.Setter.tickRateWindowArg cs).getD one ∧
    ((Application.Builder.new one).calls cs).build.renderRateWindow
      = (Application.lastArg Application.Setter.renderRateWindowArg cs).getD one := by
  have hcall : ∀ (b : Application.Builder F) (c : Application.Setter F),
      (b.call c).build.title = c.titleArg.getD b.build.title ∧
      (b.call c).build.tickRate = c.tickRateArg.getD b.build.tickRate ∧
      (b.call c).build.renderRate = c.renderRateArg.getD b.build.renderRate ∧
      (b.call c).build.isMemoryLogging = c.memoryLoggingArg.getD b.build.isMemoryLogging ∧
      (b.call c).build.isPerformanceLogging
        = c.performanceLoggingArg.getD b.build.isPerformanceLogging ∧
      (b.call c).build.tickRateWindow = c.tickRateWindowArg.getD b.build.tickRateWindow ∧
      (b.call c).build.renderRateWindow
        = c.renderRateWindowArg.getD b.build.renderRateWindow := by
    intro b c
    cases c <;> exact ⟨rfl, rfl, rfl, rfl, rfl, rfl, rfl⟩
  refine ⟨hcall, ?_, ?_, ?_, ?_, ?_, ?_, ?_⟩
  · exact Application.Builder.field_calls (fun c => c.title) _
      (fun b c => (hcall b c).1) _ cs
  · exact Application.Builder.field_calls (fun c => c.tickRate) _
      (fun b c => (hcall b c).2.1) _ cs
  · exact Application.Builder.field_calls (fun c => c.renderRate) _
      (fun b c => (hcall b c).2.2.1) _ cs
  · exact Application.Builder.field_calls (fun c => c.isMemoryLogging) _
      (fun b c => (hcall b c).2.2.2.1) _ cs
  · exact Application.Builder.field_calls (fun c => c.isPerformanceLogging) _
      (fun b c => (hcall b c).2.2.2.2.1) _ cs
  · exact Application.Builder.field_calls (fun c => c.tickRateWindow) _
      (fun b c => (hcall b c).2.2.2.2.2.1) _ cs
  · exact Application.Builder.field_calls (fun c => c.renderRateWindow) _
      (fun b c => (hcall b c).2.2.2.2.2.2) _ cs

end ApplicationClaims

end Iodine
